import Mathlib

/-!
Verification of the content submission and metadata pipeline of the
poop-quest repository (Discord bot + web server for HTML content sharing).

JavaScript strings are modelled as `List Char` (`JStr`); `String.length`
of the source is modelled as the character count.  Each regex-based
`String.replace` of the source is modelled by a dedicated left-to-right
scanner that mirrors the leftmost-match / continue-after-match semantics
of a global JavaScript regex replace.  `Math.random()`-backed helpers take
an explicit `rng : Nat → Nat` argument.  External dependencies that cannot
be given exact semantics (DOMPurify, JSDOM text extraction, WHATWG URL
parsing, the network) are taken as function parameters, and every theorem
about code using them quantifies over those parameters.
-/

abbrev JStr := List Char

/-- The set matched by the JavaScript regex class `\s`
(whitespace, line terminators, NBSP, BOM, Unicode space separators). -/
def jsIsSpace (c : Char) : Bool :=
  c == ' ' || c == '\t' || c == '\n' || c == '\r' ||
  c == '\u000b' || c == '\u000c' || c == ' ' || c == ' ' ||
  (0x2000 ≤ c.toNat && c.toNat ≤ 0x200a) ||
  c == ' ' || c == ' ' || c == ' ' || c == ' ' ||
  c == '　' || c == '﻿'

/-- ASCII `[a-zA-Z0-9]`. -/
def isAsciiAlnum (c : Char) : Bool :=
  (('a' ≤ c && c ≤ 'z') || ('A' ≤ c && c ≤ 'Z') || ('0' ≤ c && c ≤ '9'))

/-- The JavaScript regex class `\w`, i.e. `[A-Za-z0-9_]` (ASCII only). -/
def isWordChar (c : Char) : Bool :=
  isAsciiAlnum c || c == '_'

/-- `String.prototype.trim`: strip JavaScript whitespace from both ends. -/
def jsTrim (l : JStr) : JStr :=
  (l.dropWhile jsIsSpace).rdropWhile jsIsSpace

/-- Case-insensitive (ASCII) character comparison, as regexes with the
`i` flag use. -/
def ciEq (a b : Char) : Bool :=
  a.toLower == b.toLower

/-- Case-insensitive prefix test. -/
def ciStartsWith (pat l : JStr) : Bool :=
  match pat, l with
  | [], _ => true
  | _ :: _, [] => false
  | p :: ps, c :: cs => ciEq p c && ciStartsWith ps cs

/-! ## Slug sanitizer (`src/utils/slug-sanitizer.js`) -/

/-- Remainder of the list after the first `'>'`, if any
(used for the global replace of `/<[^>]*>/`). -/
def afterGt : JStr → Option JStr
  | [] => none
  | c :: r => if c = '>' then some r else afterGt r

/-- `slug.replace(/<[^>]*>/g, '')`: drop every block from a `'<'` through
the first following `'>'`; a `'<'` with no later `'>'` never matches and
is kept verbatim (as is everything after it).  Each step consumes at
least one character, so `fuel := length` always suffices; recursion is
structural on the fuel so that the function evaluates in the kernel. -/
def stripHtmlTagsGo : Nat → JStr → JStr
  | _, [] => []
  | 0, l => l
  | fuel + 1, '<' :: rest =>
    match afterGt rest with
    | some rem => stripHtmlTagsGo fuel rem
    | none => '<' :: rest
  | fuel + 1, c :: rest => c :: stripHtmlTagsGo fuel rest

/-- `slug.replace(/<[^>]*>/g, '')`. -/
def stripHtmlTags (l : JStr) : JStr :=
  stripHtmlTagsGo l.length l

/-- The explicit diacritics-folding table of `stripDiacritics`. -/
def diacriticsMap (c : Char) : Option JStr :=
  match c with
  | 'À' => some ['A'] | 'Á' => some ['A'] | 'Â' => some ['A'] | 'Ã' => some ['A']
  | 'Ä' => some ['A'] | 'Å' => some ['A'] | 'Æ' => some ['A', 'E']
  | 'Ç' => some ['C'] | 'È' => some ['E'] | 'É' => some ['E'] | 'Ê' => some ['E']
  | 'Ë' => some ['E'] | 'Ì' => some ['I'] | 'Í' => some ['I'] | 'Î' => some ['I']
  | 'Ï' => some ['I'] | 'Ð' => some ['D'] | 'Ñ' => some ['N'] | 'Ò' => some ['O']
  | 'Ó' => some ['O'] | 'Ô' => some ['O'] | 'Õ' => some ['O'] | 'Ö' => some ['O']
  | 'Ø' => some ['O'] | 'Ù' => some ['U'] | 'Ú' => some ['U'] | 'Û' => some ['U']
  | 'Ü' => some ['U'] | 'Ý' => some ['Y'] | 'Þ' => some ['T', 'H']
  | 'ß' => some ['s', 's'] | 'à' => some ['a'] | 'á' => some ['a'] | 'â' => some ['a']
  | 'ã' => some ['a'] | 'ä' => some ['a'] | 'å' => some ['a'] | 'æ' => some ['a', 'e']
  | 'ç' => some ['c'] | 'è' => some ['e'] | 'é' => some ['e'] | 'ê' => some ['e']
  | 'ë' => some ['e'] | 'ì' => some ['i'] | 'í' => some ['i'] | 'î' => some ['i']
  | 'ï' => some ['i'] | 'ð' => some ['d'] | 'ñ' => some ['n'] | 'ò' => some ['o']
  | 'ó' => some ['o'] | 'ô' => some ['o'] | 'õ' => some ['o'] | 'ö' => some ['o']
  | 'ø' => some ['o'] | 'ù' => some ['u'] | 'ú' => some ['u'] | 'û' => some ['u']
  | 'ü' => some ['u'] | 'ý' => some ['y'] | 'þ' => some ['t', 'h'] | 'ÿ' => some ['y']
  | _ => none

/-- `stripDiacritics`: `str.replace(/[^\u0000-~]/g, c => map[c] || c)`. -/
def stripDiacriticsL (l : JStr) : JStr :=
  l.flatMap fun c =>
    if c.toNat ≤ 0x7e then [c] else (diacriticsMap c).getD [c]

/-- Generic run replacement: each maximal run of characters satisfying
`p` becomes a single dash; the flag records whether the scan is inside a
run (so only the first character of a run emits the dash). -/
def replRunsAux (p : Char → Bool) : Bool → JStr → JStr
  | _, [] => []
  | inRun, c :: r =>
    if p c then
      if inRun then replRunsAux p true r else '-' :: replRunsAux p true r
    else c :: replRunsAux p false r

/-- `slug.replace(/[\s_]+/g, '-')`: each maximal run of whitespace or
underscores becomes a single dash. -/
def replSpaceUnderscore (l : JStr) : JStr :=
  replRunsAux (fun d => jsIsSpace d || d == '_') false l

/-- The global replace of each maximal dash run by a single dash
(the two dash-collapsing `slug.replace` steps). -/
def collapseDashes (l : JStr) : JStr :=
  replRunsAux (fun d => d == '-') false l

/-- `slug.replace(/[^\w\-\.~]/g, '-')` (the default `allowUnicode: false`
branch): every character outside `[\w\-.~]` becomes a dash. -/
def replDisallowed (l : JStr) : JStr :=
  l.map fun c =>
    if isWordChar c || c == '-' || c == '.' || c == '~' then c else '-'

/-- `slug.replace(/^[-\.]+|[-\.]+$/g, '')`: trim leading and trailing runs
of dashes and dots. -/
def trimDashDots (l : JStr) : JStr :=
  (l.dropWhile fun c => c == '-' || c == '.').rdropWhile
    fun c => c == '-' || c == '.'

/-- Index of the last `'-'` in the list, if any (`String.lastIndexOf`). -/
def lastDashIdx : JStr → Option Nat
  | [] => none
  | c :: r =>
    match lastDashIdx r with
    | some k => some (k + 1)
    | none => if c = '-' then some 0 else none

/-- The truncation step of `generateSlug`: cut to `maxLength`, then avoid
cutting mid-word by trimming back to the last dash when that dash falls
past position `maxLength * 0.7` (for the default `maxLength = 80` the
IEEE-754 product is exactly `56`, so the test is `lastDash > 56`). -/
def truncateSlug (maxLength thr : Nat) (l : JStr) : JStr :=
  if maxLength < l.length then
    let t := l.take maxLength
    match lastDashIdx t with
    | some k => if thr < k then t.take k else t
    | none => t
  else l

/-- The 36-character alphabet of `generateRandomString`. -/
def randChars : JStr := "abcdefghijklmnopqrstuvwxyz0123456789".data

/-- `generateRandomString(length)`: `length` draws from `randChars`.
`Math.floor(Math.random() * chars.length)` always lies in `[0, 35]`;
the supplied `rng` is reduced mod 36 to reflect that range. -/
def generateRandomString (rng : Nat → Nat) (len : Nat) : JStr :=
  (List.range len).map fun i => randChars.getD (rng i % 36) 'a'

/-- The normalization pipeline of `generateSlug` on a non-empty input,
up to (but not including) the truncation step — the value of the source
variable `slug` just before the `maxLength` block; `custom` is the
`customReplacements` pass applied first (identity for the defaults). -/
def normalizeCore (custom : JStr → JStr) (text : JStr) : JStr :=
  let s1 := stripHtmlTags (custom text)
  let s2 := stripDiacriticsL s1
  let s3 := s2.map Char.toLower
  let s4 := replSpaceUnderscore s3
  let s5 := collapseDashes s4
  let s6 := replDisallowed s5
  let s7 := trimDashDots s6
  let s8 := collapseDashes s7
  (s8.dropWhile fun c => !isAsciiAlnum c).rdropWhile
    fun c => !isAsciiAlnum c

/-- The full normalization pipeline of `generateSlug` on a non-empty
input, before the minimum-length fallback. -/
def normalizeSlug (custom : JStr → JStr) (text : JStr) : JStr :=
  truncateSlug 80 56 (normalizeCore custom text)

/-- `generateSlug(text)` with the default options; falls back to
`post-<random6>` when the normalized result is under 3 characters. -/
def generateSlugCore (custom : JStr → JStr) (rng : Nat → Nat) (text : JStr) : JStr :=
  let slug := normalizeSlug custom text
  if slug.length < 3 then "post-".data ++ generateRandomString rng 6 else slug

/-- `generateSlug(text)` (default options): throws on a non-string or
empty input, otherwise runs the normalization pipeline. -/
def generateSlug (rng : Nat → Nat) (text : JStr) : Except JStr JStr :=
  if text = [] then .error "generateSlug requires a non-empty string".data
  else .ok (generateSlugCore id rng text)

/-- The `customReplacements` map of `cleanUserSlug`; each entry is a
single-character global regex replace, applied in insertion order (no
replacement output contains a later pattern character, so the sequential
replaces coincide with this single pass). -/
def cleanUserRepl (l : JStr) : JStr :=
  l.flatMap fun c =>
    match c with
    | '&' => "and".data
    | '@' => "at".data
    | '#' => "hash".data
    | '%' => "percent".data
    | '$' => "dollar".data
    | '+' => "plus".data
    | '=' => "equals".data
    | _ => [c]

/-- `cleanUserSlug(userInput)`: empty input yields `''`; otherwise
`generateSlug` with the symbol-to-word custom replacements. -/
def cleanUserSlug (rng : Nat → Nat) (input : JStr) : JStr :=
  if input = [] then [] else generateSlugCore cleanUserRepl rng input

/-- The reserved-word set of `isReservedSlug` (duplicates as in source). -/
def reservedWords : List JStr :=
  ["api", "admin", "auth", "login", "logout", "register", "dashboard",
    "static", "assets", "public", "images", "css", "js", "robots.txt",
    "sitemap.xml", "favicon.ico", "manifest.json",
    "search", "about", "contact", "help", "privacy", "terms", "stats",
    "health", "status", "ping", "metrics", "sitemap", "feed", "rss",
    "www", "mail", "ftp", "localhost", "test", "staging", "dev", "demo",
    "blog", "news", "posts", "post", "page", "pages", "user", "users",
    "profile", "settings", "config", "system", "internal", "external",
    "get", "post", "put", "patch", "delete", "head", "options", "trace",
    "connect", "webhook", "callback", "oauth", "token", "refresh",
    "db", "database", "sql", "query", "index", "cache", "session",
    "cookie", "cors", "csrf", "xss", "injection", "exploit",
    "html", "htm", "xml", "json", "txt", "pdf", "jpg", "jpeg", "png",
    "gif", "svg", "ico", "css", "js", "php", "asp", "jsp"].map String.data

/-- `isReservedSlug(slug)`: membership of the lowercased slug in the
reserved-word set. -/
def isReservedSlug (slug : JStr) : Bool :=
  reservedWords.contains (slug.map Char.toLower)

/-- `/^[a-zA-Z0-9\-\.~]+$/`: the characters `validateSlug` permits. -/
def isSlugChar (c : Char) : Bool :=
  isAsciiAlnum c || c == '-' || c == '.' || c == '~'

/-- The consecutive-hyphens test of `validateSlug`: the slug contains two
adjacent dashes. -/
def hasConsecDash : JStr → Bool
  | '-' :: '-' :: _ => true
  | _ :: r => hasConsecDash r
  | [] => false

/-- First character is ASCII alphanumeric (`/^[a-zA-Z0-9]/`). -/
def headAlnum (l : JStr) : Bool :=
  match l with
  | c :: _ => isAsciiAlnum c
  | [] => false

/-- Last character is ASCII alphanumeric (`/[a-zA-Z0-9]$/`). -/
def lastAlnum (l : JStr) : Bool :=
  headAlnum l.reverse

/-- `validateSlug(slug)`: the accumulated error list. -/
def validateSlugErrors (slug : JStr) : List JStr :=
  if slug = [] then ["Slug must be a non-empty string".data]
  else
    (if slug.length < 3 then ["Slug must be at least 3 characters long".data] else []) ++
    (if 80 < slug.length then ["Slug must be no more than 80 characters long".data] else []) ++
    (if !slug.all isSlugChar then ["Slug contains invalid characters".data] else []) ++
    (if !headAlnum slug then ["Slug must start with a letter or number".data] else []) ++
    (if !lastAlnum slug then ["Slug must end with a letter or number".data] else []) ++
    (if hasConsecDash slug then ["Slug cannot contain consecutive hyphens".data] else []) ++
    (if isReservedSlug slug then ["Slug cannot be a reserved word".data] else [])

/-- `validateSlug(slug).isValid`. -/
def validateSlugIsValid (slug : JStr) : Bool :=
  validateSlugErrors slug = []

/-- `Nat` rendered in decimal, as JavaScript template interpolation does. -/
def natToJStr (n : Nat) : JStr := (toString n).data

/-- The loop of `generateUniqueSlug`, also recording every slug the
existence callback was invoked on, in order.  `remaining` is the exact
mirror of the source guard `counter > maxAttempts` (with
`maxAttempts = 100`): it equals `101 - counter`, and the guard fires
precisely when it reaches zero, at which point the result falls back to
`baseSlug-<random8>` without a further existence check. -/
def generateUniqueSlugGo (existsCb : JStr → Bool) (base : JStr)
    (rng : Nat → Nat) : Nat → JStr → Nat → JStr × List JStr
  | remaining, slug, counter =>
    if existsCb slug then
      match remaining with
      | 0 => (base ++ '-' :: generateRandomString rng 8, [slug])
      | rem + 1 =>
        let next := generateUniqueSlugGo existsCb base rng rem
          (base ++ '-' :: natToJStr counter) (counter + 1)
        (next.1, slug :: next.2)
    else (slug, [slug])

/-- `generateUniqueSlug(baseSlug, existsCallback)` together with the list
of slugs the callback was invoked on (loop entry: `counter = 1`). -/
def generateUniqueSlugTrace (existsCb : JStr → Bool) (rng : Nat → Nat)
    (base : JStr) : JStr × List JStr :=
  generateUniqueSlugGo existsCb base rng 100 base 1

/-- `generateUniqueSlug(baseSlug, existsCallback)` (result only). -/
def generateUniqueSlug (existsCb : JStr → Bool) (rng : Nat → Nat) (base : JStr) : JStr :=
  (generateUniqueSlugTrace existsCb rng base).1

/-! ## Security utilities (`src/utils/security.js`) -/

/-- The character map of `escapeHTML`. -/
def escChar (c : Char) : JStr :=
  match c with
  | '&' => "&amp;".data
  | '<' => "&lt;".data
  | '>' => "&gt;".data
  | '"' => "&quot;".data
  | '\'' => "&#39;".data
  | '/' => "&#x2F;".data
  | _ => [c]

/-- `escapeHTML(text)`: replace each special character by its entity
(the guard for a falsy input returns `''`, which coincides with the
character-wise replacement on the empty string). -/
def escapeHTML (l : JStr) : JStr :=
  l.flatMap escChar

/-- Scanner for `unescapeHTML`: the left-to-right global replace of the
six entity alternatives of the source regex; at most one alternative can
match at any position (their suffixes after `&` are mutually non-prefix),
so the alternation order does not matter: at an `&` that completes an
entity the entity is replaced and the scan continues after it, otherwise
the character passes through and the scan advances one position.  The
fuel argument only serves termination and is instantiated with the input
length, which every recursive call preserves as an upper bound. -/
def unescapeGo : Nat → JStr → JStr
  | _, [] => []
  | 0, l => l
  | fuel + 1, c :: r =>
    if c = '&' then
      if r.take 4 = "amp;".data then '&' :: unescapeGo fuel (r.drop 4)
      else if r.take 3 = "lt;".data then '<' :: unescapeGo fuel (r.drop 3)
      else if r.take 3 = "gt;".data then '>' :: unescapeGo fuel (r.drop 3)
      else if r.take 5 = "quot;".data then '"' :: unescapeGo fuel (r.drop 5)
      else if r.take 4 = "#39;".data then '\'' :: unescapeGo fuel (r.drop 4)
      else if r.take 5 = "#x2F;".data then '/' :: unescapeGo fuel (r.drop 5)
      else '&' :: unescapeGo fuel r
    else c :: unescapeGo fuel r

/-- `unescapeHTML(text)`: global replace of the entity alternation. -/
def unescapeHTML (s : JStr) : JStr := unescapeGo s.length s

/-- Generic left-to-right global regex replace: `m` attempts a match at
the current position and yields the matched length together with the
replacement text; on failure the scan advances one character, exactly as
a JavaScript global replace does.  Every matcher used below consumes at
least one character; the zero-length guard only serves termination. -/
def replaceScanGo (m : JStr → Option (Nat × JStr)) : Nat → JStr → JStr
  | _, [] => []
  | 0, l => l
  | fuel + 1, c :: r =>
    match m (c :: r) with
    | some (n, out) =>
      if n = 0 then c :: replaceScanGo m fuel r
      else out ++ replaceScanGo m fuel ((c :: r).drop n)
    | none => c :: replaceScanGo m fuel r

/-- The scan with enough fuel for the whole input (each step consumes at
least one character; the fuel is structural so the kernel can reduce). -/
def replaceScan (m : JStr → Option (Nat × JStr)) (l : JStr) : JStr :=
  replaceScanGo m l.length l

/-- Length of the maximal run of characters satisfying `p`. -/
def countWhile (p : Char → Bool) (l : JStr) : Nat :=
  (l.takeWhile p).length

/-- Index of the first case-insensitive occurrence of `pat`, if any. -/
def ciFindIdx (pat : JStr) : JStr → Option Nat
  | [] => if ciStartsWith pat [] then some 0 else none
  | c :: r =>
    if ciStartsWith pat (c :: r) then some 0
    else (ciFindIdx pat r).map (· + 1)

/-- Matcher for an element block
`/<tag\b[^<]*(?:(?!<\/tag>)<[^<]*)*<\/tag>/gi`: from a case-insensitive
`<tag` with a word boundary, everything through the first following
case-insensitive `</tag>`; without a closing tag there is no match. -/
def elementBlockMatcher (tag : JStr) (l : JStr) : Option (Nat × JStr) :=
  if ciStartsWith ('<' :: tag) l then
    let after := l.drop (1 + tag.length)
    let boundary :=
      match after.head? with
      | some d => !isWordChar d
      | none => true
    if boundary then
      match ciFindIdx ('<' :: '/' :: (tag ++ ['>'])) after with
      | some i => some (1 + tag.length + i + (2 + tag.length + 1), [])
      | none => none
    else none
  else none

/-- `html.replace(/<tag\b.../gi, '')` for a given tag (used for the
`script` and `style` element removal steps of `sanitizeHTML`). -/
def removeElementBlocks (tag : JStr) (l : JStr) : JStr :=
  replaceScan (elementBlockMatcher tag) l

/-- Matcher for a case-insensitive literal (used for the `javascript:`,
`data:` and `vbscript:` protocol removal steps). -/
def ciLiteralMatcher (pat : JStr) (l : JStr) : Option (Nat × JStr) :=
  if ciStartsWith pat l then some (pat.length, []) else none

/-- `html.replace(/pat/gi, '')` for a literal pattern. -/
def removeCiLiteral (pat : JStr) (l : JStr) : JStr :=
  replaceScan (ciLiteralMatcher pat) l

/-- The `\s*=\s*["']([^"']*)["']` tail of an attribute assignment:
returns the consumed length together with the captured value, which runs
to the first quote of either kind. -/
def quotedValTail (l : JStr) : Option (Nat × JStr) :=
  let s2 := countWhile jsIsSpace l
  let l2 := l.drop s2
  match l2.head? with
  | some '=' =>
    let l3 := l2.drop 1
    let s3 := countWhile jsIsSpace l3
    let l4 := l3.drop s3
    match l4.head? with
    | some q =>
      if q = '"' || q = '\'' then
        let v := (l4.drop 1).takeWhile fun c => !(c = '"' || c = '\'')
        match (l4.drop 1).drop v.length |>.head? with
        | some q2 =>
          if q2 = '"' || q2 = '\'' then
            some (s2 + 1 + s3 + 1 + v.length + 1, v)
          else none
        | none => none
      else none
    | none => none
  | some _ => none
  | none => none

/-- Matcher for `/\s*on\w+\s*=\s*["'][^"']*["']/gi`. -/
def eventHandlerQMatcher (l : JStr) : Option (Nat × JStr) :=
  let s1 := countWhile jsIsSpace l
  let l1 := l.drop s1
  if ciStartsWith "on".data l1 then
    let w := countWhile isWordChar (l1.drop 2)
    if w = 0 then none
    else
      match quotedValTail ((l1.drop 2).drop w) with
      | some (t, _) => some (s1 + 2 + w + t, [])
      | none => none
  else none

/-- Matcher for `/\s*on\w+\s*=\s*[^"'\s>]+/gi` (unquoted handler). -/
def eventHandlerUMatcher (l : JStr) : Option (Nat × JStr) :=
  let s1 := countWhile jsIsSpace l
  let l1 := l.drop s1
  if ciStartsWith "on".data l1 then
    let w := countWhile isWordChar (l1.drop 2)
    if w = 0 then none
    else
      let l2 := (l1.drop 2).drop w
      let s2 := countWhile jsIsSpace l2
      let l3 := l2.drop s2
      match l3.head? with
      | some '=' =>
        let l4 := l3.drop 1
        let s3 := countWhile jsIsSpace l4
        let l5 := l4.drop s3
        let v := countWhile
          (fun c => !(c = '"' || c = '\'' || jsIsSpace c || c = '>')) l5
        if v = 0 then none
        else some (s1 + 2 + w + s2 + 1 + s3 + v, [])
      | some _ => none
      | none => none
  else none

/-- Matcher for ``\s*${attr}\s*=\s*["'][^"']*["']`` (the
`dangerousAttrs` loop): a fixed attribute name instead of `on\w+`. -/
def namedAttrMatcher (name : JStr) (l : JStr) : Option (Nat × JStr) :=
  let s1 := countWhile jsIsSpace l
  let l1 := l.drop s1
  if ciStartsWith name l1 then
    match quotedValTail (l1.drop name.length) with
    | some (t, _) => some (s1 + name.length + t, [])
    | none => none
  else none

/-- The fixed `dangerousAttrs` list of `sanitizeHTML`. -/
def dangerousAttrs : List JStr :=
  ["onload", "onerror", "onclick", "onmouseover", "onmouseout",
    "onkeydown", "onkeyup", "onsubmit", "onchange", "onfocus",
    "onblur", "onscroll", "onresize", "onunload", "onbeforeunload"].map
    String.data

/-- `SAFE_HTML_CONFIG.allowedTags`. -/
def allowedTags : List JStr :=
  ["p", "br", "strong", "b", "em", "i", "u", "span", "div",
    "h1", "h2", "h3", "h4", "h5", "h6",
    "ul", "ol", "li",
    "a", "img",
    "table", "thead", "tbody", "tr", "td", "th",
    "code", "pre", "blockquote",
    "article", "section", "aside", "header", "footer", "main", "nav",
    "hr", "small", "sub", "sup", "mark", "del", "ins", "abbr", "cite",
    "q", "dfn", "time", "kbd", "samp", "var", "details", "summary"].map
    String.data

/-- `SAFE_HTML_CONFIG.allowedAttributes` per lowercased tag. -/
def allowedAttributesFor (tag : JStr) : List JStr :=
  if tag = "a".data then ["href", "title", "target", "rel"].map String.data
  else if tag = "img".data then
    ["src", "alt", "title", "width", "height"].map String.data
  else if tag = "blockquote".data then ["cite"].map String.data
  else if tag = "q".data then ["cite"].map String.data
  else if tag = "time".data then ["datetime"].map String.data
  else if tag = "abbr".data then ["title"].map String.data
  else if tag = "dfn".data then ["title"].map String.data
  else if tag = "th".data then ["scope", "colspan", "rowspan"].map String.data
  else if tag = "td".data then ["colspan", "rowspan"].map String.data
  else if tag = "details".data then ["open"].map String.data
  else []

/-- The `'*'` entry of `allowedAttributes`. -/
def allowedAttributesGlobal : List JStr :=
  ["class", "id", "style"].map String.data

/-- `SAFE_HTML_CONFIG.allowedProtocols`. -/
def allowedProtocols : List JStr :=
  ["http", "https", "mailto", "tel"].map String.data

/-- `SAFE_HTML_CONFIG.allowedStyles`. -/
def allowedStyles : List JStr :=
  ["color", "background-color", "font-size", "font-family", "font-weight",
    "text-align", "text-decoration", "margin", "padding", "border",
    "width", "height", "display", "float", "clear"].map String.data

/-- ASCII `[a-zA-Z]`. -/
def isAsciiAlpha (c : Char) : Bool :=
  ('a' ≤ c && c ≤ 'z') || ('A' ≤ c && c ≤ 'Z')

/-- Split at every occurrence of a single separator character
(`String.prototype.split` with a character argument). -/
def splitChar (sep : Char) : JStr → List JStr
  | [] => [[]]
  | c :: r =>
    if c = sep then [] :: splitChar sep r
    else
      match splitChar sep r with
      | p :: ps => (c :: p) :: ps
      | [] => [[c]]

/-- `String.prototype.split` with a separator regex matching maximal runs
of characters satisfying `p` (such as `/\s+/`); the flag records whether
the scan is inside a separator run (only the first separator of a run
opens a new piece). -/
def splitRunsAux (p : Char → Bool) : Bool → JStr → List JStr
  | _, [] => [[]]
  | inSep, c :: r =>
    if p c then
      if inSep then splitRunsAux p true r
      else [] :: splitRunsAux p true r
    else
      match splitRunsAux p false r with
      | q :: qs => (c :: q) :: qs
      | [] => [[c]]

/-- `String.prototype.split` on maximal `p`-runs. -/
def splitRuns (p : Char → Bool) (l : JStr) : List JStr :=
  splitRunsAux p false l

/-- Interleave a separator between list elements (`Array.prototype.join`). -/
def joinSep (sep : JStr) : List JStr → JStr
  | [] => []
  | [x] => x
  | x :: xs => x ++ sep ++ joinSep sep xs

/-- Case-insensitive substring test. -/
def ciContains (pat l : JStr) : Bool :=
  (ciFindIdx pat l).isSome

/-- Parse `\/?([a-zA-Z][a-zA-Z0-9]*)[^>]*>` after a `'<'`: an optional
slash, a tag name, then everything through the first `'>'`.  Returns the
total matched length (including the `'<'`) and the tag name. -/
def tagLikeParse (l : JStr) : Option (Nat × JStr) :=
  match l with
  | '<' :: r0 =>
    let slash := if r0.head? = some '/' then 1 else 0
    let r1 := r0.drop slash
    match r1.head? with
    | some c =>
      if isAsciiAlpha c then
        let name := c :: (r1.drop 1).takeWhile isAsciiAlnum
        let r2 := r1.drop name.length
        match ciFindIdx ['>'] r2 with
        | some j => some (1 + slash + name.length + j + 1, name)
        | none => none
      else none
    | none => none
  | _ => none

/-- Matcher for `sanitizeElements`: a tag-like block is kept verbatim
when its lowercased name is allow-listed and removed otherwise. -/
def sanitizeElementsMatcher (l : JStr) : Option (Nat × JStr) :=
  match tagLikeParse l with
  | some (n, name) =>
    if allowedTags.contains (name.map Char.toLower) then some (n, l.take n)
    else some (n, [])
  | none => none

/-- Parse the element-open pattern
`<([a-zA-Z][a-zA-Z0-9]*)((?:\s+[^>]*)?)>`: returns the total matched
length, the tag name and the raw attribute text (which, when non-empty,
starts with whitespace and contains no `'>'`). -/
def elementOpenParse (l : JStr) : Option (Nat × JStr × JStr) :=
  match l with
  | '<' :: r0 =>
    match r0.head? with
    | some c =>
      if isAsciiAlpha c then
        let name := c :: (r0.drop 1).takeWhile isAsciiAlnum
        let r1 := r0.drop name.length
        match r1.head? with
        | some '>' => some (1 + name.length + 1, name, [])
        | some d =>
          if jsIsSpace d then
            match ciFindIdx ['>'] r1 with
            | some j => some (1 + name.length + j + 1, name, r1.take j)
            | none => none
          else none
        | none => none
      else none
    | none => none
  | _ => none

/-- Matcher for one attribute of the `attrRegex`
`\s+([a-zA-Z][a-zA-Z0-9-]*)\s*=\s*["']([^"']*)["']`: returns the
consumed length, the attribute name and its raw value. -/
def attrPairMatcher (l : JStr) : Option (Nat × (JStr × JStr)) :=
  let s1 := countWhile jsIsSpace l
  if s1 = 0 then none
  else
    let l1 := l.drop s1
    match l1.head? with
    | some c =>
      if isAsciiAlpha c then
        let name := c :: (l1.drop 1).takeWhile fun d => isAsciiAlnum d || d = '-'
        match quotedValTail (l1.drop name.length) with
        | some (t, v) => some (s1 + name.length + t, (name, v))
        | none => none
      else none
    | none => none

def scanAttrPairsGo : Nat → JStr → List (JStr × JStr)
  | _, [] => []
  | 0, _ => []
  | fuel + 1, c :: r =>
    match attrPairMatcher (c :: r) with
    | some (n, pair) =>
      if n = 0 then scanAttrPairsGo fuel r
      else pair :: scanAttrPairsGo fuel ((c :: r).drop n)
    | none => scanAttrPairsGo fuel r

/-- The `exec` loop over `attrRegex`: successive non-overlapping
leftmost matches, each yielding an attribute name/value pair. -/
def scanAttrPairs (l : JStr) : List (JStr × JStr) :=
  scanAttrPairsGo l.length l

/-- `sanitizeURL(url, allowedProtocols)`.  `parseProto` models the WHATWG
`new URL` constructor: the lowercased scheme of an absolute URL, or
`none` when parsing throws (the catch treats the input as relative). -/
def sanitizeURL (parseProto : JStr → Option JStr) (allowed : List JStr)
    (url : JStr) : Option JStr :=
  if url = [] then none
  else
    let u := jsTrim url
    if ciStartsWith "javascript:".data u || ciStartsWith "vbscript:".data u ||
        ciStartsWith "data:".data u then none
    else if "/".data.isPrefixOf u || "./".data.isPrefixOf u ||
        "../".data.isPrefixOf u then some u
    else
      match parseProto u with
      | some proto => if allowed.contains proto then some u else none
      | none => some u

/-- The dangerous-value test of `sanitizeStyleAttribute`
(`expression|javascript|vbscript|behavior|binding|@import|url\(`). -/
def dangerousCss (v : JStr) : Bool :=
  ciContains "expression".data v || ciContains "javascript".data v ||
  ciContains "vbscript".data v || ciContains "behavior".data v ||
  ciContains "binding".data v || ciContains "@import".data v ||
  ciContains "url(".data v

/-- `sanitizeStyleAttribute(style, allowedStyles)`. -/
def sanitizeStyleAttribute (style : JStr) : JStr :=
  let decls := ((splitChar ';' style).map jsTrim).filter (· ≠ [])
  let kept := decls.filterMap fun d =>
    match (splitChar ':' d).map jsTrim with
    | p :: v :: _ =>
      if p ≠ [] && v ≠ [] && allowedStyles.contains (p.map Char.toLower) &&
          !dangerousCss v then
        some (p ++ ": ".data ++ v)
      else none
    | _ => none
  joinSep "; ".data kept

/-- `sanitizeClassOrId(value)`: keep only `[a-zA-Z0-9_\-\s]`, then trim. -/
def sanitizeClassOrId (v : JStr) : JStr :=
  jsTrim (v.filter fun c => isAsciiAlnum c || c = '_' || c = '-' || jsIsSpace c)

/-- The `rel` allow list of `sanitizeAttributeValue`. -/
def allowedRels : List JStr :=
  ["nofollow", "noopener", "noreferrer", "alternate", "canonical"].map
    String.data

/-- `sanitizeAttributeValue(attrName, attrValue, config)` for the (already
lowercased) attribute name; `none` models the `null` rejection. -/
def sanitizeAttributeValue (parseProto : JStr → Option JStr)
    (attrName attrValue : JStr) : Option JStr :=
  if attrValue = [] then some []
  else if attrName = "href".data then
    sanitizeURL parseProto allowedProtocols attrValue
  else if attrName = "src".data then
    sanitizeURL parseProto (allowedProtocols ++ ["data".data]) attrValue
  else if attrName = "style".data then some (sanitizeStyleAttribute attrValue)
  else if attrName = "class".data || attrName = "id".data then
    some (sanitizeClassOrId attrValue)
  else if attrName = "target".data then
    if (["_blank", "_self", "_parent", "_top"].map String.data).contains
        attrValue then
      some attrValue
    else none
  else if attrName = "rel".data then
    let rels := (splitRuns jsIsSpace attrValue).filter allowedRels.contains
    if rels ≠ [] then some (joinSep " ".data rels) else none
  else some (escapeHTML attrValue)

/-- Matcher for `sanitizeAttributes`: rewrite an opening element,
keeping only allow-listed attributes with sanitized values. -/
def sanitizeAttributesMatcher (parseProto : JStr → Option JStr) (l : JStr) :
    Option (Nat × JStr) :=
  match elementOpenParse l with
  | some (n, name, attrs) =>
    if attrs = [] then some (n, l.take n)
    else
      let lowerTag := name.map Char.toLower
      let kept := (scanAttrPairs attrs).filterMap fun pair =>
        let lowerAn := pair.1.map Char.toLower
        if (allowedAttributesFor lowerTag).contains lowerAn ||
            allowedAttributesGlobal.contains lowerAn then
          match sanitizeAttributeValue parseProto lowerAn pair.2 with
          | some v => some (pair.1 ++ '=' :: '"' :: (v ++ ['"']))
          | none => none
        else none
      let attrString := if kept = [] then [] else ' ' :: joinSep " ".data kept
      some (n, '<' :: (name ++ attrString ++ ['>']))
  | none => none

/-- Matcher for the empty-element removal
`/<(\w+)(?:\s+[^>]*)?>[\s]*<\/\1>/gi`: an opening tag (name of word
characters), optional whitespace, then the matching case-insensitive
closing tag. -/
def emptyElementMatcher (l : JStr) : Option (Nat × JStr) :=
  match l with
  | '<' :: r0 =>
    let name := r0.takeWhile isWordChar
    if name = [] then none
    else
      let r1 := r0.drop name.length
      let openTail : Option Nat :=
        match r1.head? with
        | some '>' => some 1
        | some d =>
          if jsIsSpace d then
            match ciFindIdx ['>'] r1 with
            | some j => some (j + 1)
            | none => none
          else none
        | none => none
      match openTail with
      | some k =>
        let after := r1.drop k
        let sp := countWhile jsIsSpace after
        if ciStartsWith ('<' :: '/' :: (name ++ ['>'])) (after.drop sp) then
          some (1 + name.length + k + sp + (2 + name.length + 1), [])
        else none
      | none => none
  | _ => none

/-- `sanitizeHTML(html)` with the default options (`allowStyleTags` and
`allowDataUrls` unset): the full replacement chain of the source, in
source order, ending with `trim`. -/
def sanitizeHTML (parseProto : JStr → Option JStr) (html : JStr) : JStr :=
  if html = [] then []
  else
    let h1 := removeElementBlocks "script".data html
    let h2 := removeElementBlocks "style".data h1
    let h3 := replaceScan eventHandlerQMatcher h2
    let h4 := replaceScan eventHandlerUMatcher h3
    let h5 := removeCiLiteral "javascript:".data h4
    let h6 := removeCiLiteral "data:".data h5
    let h7 := removeCiLiteral "vbscript:".data h6
    let h8 := dangerousAttrs.foldl
      (fun acc attr => replaceScan (namedAttrMatcher attr) acc) h7
    let h9 := replaceScan sanitizeElementsMatcher h8
    let h10 := replaceScan (sanitizeAttributesMatcher parseProto) h9
    let h11 := replaceScan emptyElementMatcher h10
    jsTrim h11

/-! ## Grok client (`src/ai/grok-client.js`) -/

/-- A thrown JavaScript error: constructor name, message, and the
`status` field carried by `GrokAPIError` (`none` for network errors and
for plain `Error`s). -/
structure JsError where
  name : JStr
  message : JStr
  status : Option Nat
deriving DecidableEq

/-- `this.maxRetries` from the `GrokClient` constructor. -/
def grokMaxRetries : Nat := 3

/-- `this.retryDelay` (milliseconds) from the `GrokClient` constructor. -/
def grokRetryDelay : Nat := 1000

/-- `shouldRetry(error)`: only a `GrokAPIError` whose status is 429, 502,
503 or 504. -/
def shouldRetry (e : JsError) : Bool :=
  e.name == "GrokAPIError".data &&
    (e.status == some 429 || e.status == some 502 ||
      e.status == some 503 || e.status == some 504)

/-- The recursion of `makeRequest(endpoint, data, retries)`.  `responses`
gives the outcome of the `retries`-th HTTP attempt (the network and the
response interceptor folded into one oracle).  Returns the result, the
total number of attempts made (one more than the index of the last
attempt), and the list of backoff delays slept, in order
(`retryDelay * 2^retries` before each retry). -/
def makeRequestGo (responses : Nat → Except JsError α) :
    Nat → Nat → Except JsError α × Nat × List Nat
  | remaining, retries =>
    match responses retries with
    | .ok v => (.ok v, retries + 1, [])
    | .error e =>
      if shouldRetry e then
        match remaining with
        | 0 => (.error e, retries + 1, [])
        | rem + 1 =>
          let rest := makeRequestGo responses rem (retries + 1)
          (rest.1, rest.2.1, (grokRetryDelay * 2 ^ retries) :: rest.2.2)
      else (.error e, retries + 1, [])

/-- `makeRequest(endpoint, data)` (outer call has `retries = 0`;
`remaining = grokMaxRetries - retries` mirrors the source guard
`retries < this.maxRetries` exactly). -/
def makeRequest (responses : Nat → Except JsError α) :
    Except JsError α × Nat × List Nat :=
  makeRequestGo responses grokMaxRetries 0

/-! ## Content analyzer (`ContentAnalyzer`, `src/ai/content-analyzer.js`) -/

/-- The validated metadata object `grokClient.analyzeContent` resolves
with (`slug`, `title`, `description`). -/
structure GrokAnalysis where
  slug : JStr
  title : JStr
  description : JStr
deriving DecidableEq

/-- The `features` object computed by `enhanceMetadata`. -/
structure Features where
  hasImages : Bool
  hasLinks : Bool
  hasCode : Bool
  hasLists : Bool
deriving DecidableEq

/-- The result object of `ContentAnalyzer.analyzeContent` (both the
success path and the fallback path).  The echo-only `metadata` fields
(`analyzedAt` timestamp, version, Discord user) are not modelled; the
`analyzer` tag and `error` note are. -/
structure AnalyzerOutput where
  slug : JStr
  title : JStr
  description : JStr
  wordCount : Nat
  readingTime : Nat
  contentType : JStr
  features : Features
  tags : List JStr
  analyzerTag : JStr
  metaError : Option JStr
deriving DecidableEq

/-- Does any position of the text satisfy `test` (regex `test` search). -/
def anyPos (test : JStr → Bool) : JStr → Bool
  | [] => test []
  | c :: r => test (c :: r) || anyPos test r

/-- An opening tag `<name[^>]*>` (case-insensitive) starts here. -/
def tagOpenAt (name : JStr) (l : JStr) : Bool :=
  ciStartsWith ('<' :: name) l &&
    (ciFindIdx ['>'] (l.drop (1 + name.length))).isSome

/-- `hasImages`: `/<img[^>]*>/i.test(htmlContent)`. -/
def hasImages (l : JStr) : Bool :=
  anyPos (tagOpenAt "img".data) l

/-- `hasLinks`: `/<a[^>]*href[^>]*>/i.test(htmlContent)` — an `<a` with
`href` before the first following `'>'`. -/
def hasLinks (l : JStr) : Bool :=
  anyPos
    (fun s =>
      ciStartsWith "<a".data s &&
        match ciFindIdx ['>'] (s.drop 2) with
        | some k => ciContains "href".data ((s.drop 2).take k)
        | none => false)
    l

/-- `hasCode`: `/<(pre|code)[^>]*>/i.test(htmlContent)`. -/
def hasCode (l : JStr) : Bool :=
  anyPos (fun s => tagOpenAt "pre".data s || tagOpenAt "code".data s) l

/-- `hasLists`: `/<(ul|ol)[^>]*>/i.test(htmlContent)`. -/
def hasLists (l : JStr) : Bool :=
  anyPos (fun s => tagOpenAt "ul".data s || tagOpenAt "ol".data s) l

/-- The `features` object of `enhanceMetadata` over the given HTML. -/
def featuresOf (html : JStr) : Features :=
  { hasImages := hasImages html, hasLinks := hasLinks html,
    hasCode := hasCode html, hasLists := hasLists html }

/-- `getWordCount(text)`: split on whitespace runs, count the non-empty
pieces. -/
def getWordCount (text : JStr) : Nat :=
  ((splitRuns jsIsSpace text).filter (· ≠ [])).length

/-- `calculateReadingTime(text)`: `Math.ceil(wordCount / 200)`. -/
def calculateReadingTime (text : JStr) : Nat :=
  (getWordCount text + 199) / 200

/-- The `commonWords` stop list of `extractTags`. -/
def commonWords : List JStr :=
  ["the", "and", "or", "but", "in", "on", "at", "to", "for", "of", "with",
    "by", "is", "are", "was", "were", "be", "been", "have", "has", "had",
    "do", "does", "did", "will", "would", "could", "should", "may",
    "might", "must", "can", "this", "that", "these", "those", "a",
    "an"].map String.data

/-- One step of the word-frequency count of `extractTags`, preserving
first-occurrence order as a JavaScript object does for string keys. -/
def bumpCount : List (JStr × Nat) → JStr → List (JStr × Nat)
  | [], w => [(w, 1)]
  | (x, n) :: rest, w =>
    if x = w then (x, n + 1) :: rest else (x, n) :: bumpCount rest w

/-- `extractTags(text)`: lowercase, delete `[^\w\s]`, split on whitespace,
keep words longer than 3 letters that are not stop words, count, sort by
frequency descending (stably, as `Array.prototype.sort` is), take 5. -/
def extractTags (text : JStr) : List JStr :=
  let cleaned := (text.map Char.toLower).filter
    fun c => isWordChar c || jsIsSpace c
  let words := (splitRuns jsIsSpace cleaned).filter
    fun w => 3 < w.length && !commonWords.contains w
  let counts := words.foldl bumpCount []
  ((counts.mergeSort fun a b => b.2 ≤ a.2).take 5).map (·.1)

/-- `/^[a-z0-9-]+$/.test(slug)` — the slug-shape check shared by
`postProcessAnalysis` and the `Post` model. -/
def isLowerSlug (l : JStr) : Bool :=
  l ≠ [] && l.all fun c =>
    ('a' ≤ c && c ≤ 'z') || ('0' ≤ c && c ≤ '9') || c = '-'

/-- A maximal whitespace run replaced by a single dash
(`.replace(/\s+/g, '-')`). -/
def replSpaceRuns (l : JStr) : JStr :=
  replRunsAux jsIsSpace false l

/-- `ContentAnalyzer.generateSlugFromTitle(title)` (also
`GrokClient.generateFallbackSlug`, which has identical source): lowercase,
delete everything outside `[a-z0-9\s-]`, whitespace runs to dashes,
collapse dashes, `trim` (JavaScript `trim` takes no argument — the
`'-'` passed in source is ignored and plain whitespace trimming happens,
a no-op at this point), cut to 50, with `untitled-post` fallbacks. -/
def generateSlugFromTitle (title : JStr) : JStr :=
  if jsTrim title = [] then "untitled-post".data
  else
    let t1 := title.map Char.toLower
    let t2 := t1.filter fun c =>
      ('a' ≤ c && c ≤ 'z') || ('0' ≤ c && c ≤ '9') || jsIsSpace c || c = '-'
    let t3 := replSpaceRuns t2
    let t4 := collapseDashes t3
    let t5 := jsTrim t4
    let t6 := t5.take 50
    if t6 = [] then "untitled-post".data else t6

/-- `generateDescriptionFromContent(content)`: the first sentence whose
trimmed length exceeds 10, truncated to 157 with an ellipsis; otherwise
the (possibly truncated) content itself; a generic label for blank
content. -/
def generateDescriptionFromContent (content : JStr) : JStr :=
  if content = [] || jsTrim content = [] then
    "User-generated content shared via Discord".data
  else
    let sentences := (splitRuns (fun c => c = '.' || c = '!' || c = '?')
      content).filter fun s => 10 < (jsTrim s).length
    match sentences with
    | s :: _ =>
      let d := jsTrim s
      if 157 < d.length then d.take 154 ++ "...".data else d
    | [] =>
      if 157 < content.length then content.take 154 ++ "...".data
      else content

/-- `generateFallbackMetadata(htmlContent, options)`;  `extractText`
models `extractTextContent` (JSDOM `textContent` with its internal
regex fallback). -/
def generateFallbackMetadata (extractText : JStr → JStr) (html : JStr)
    (fallbackTitle : JStr) (err : JStr) : AnalyzerOutput :=
  let extracted := extractText html
  { slug := generateSlugFromTitle fallbackTitle,
    title := fallbackTitle,
    description := generateDescriptionFromContent extracted,
    wordCount := getWordCount extracted,
    readingTime := calculateReadingTime extracted,
    contentType := "general".data,
    features := featuresOf html,
    tags := extractTags extracted,
    analyzerTag := "fallback-analyzer".data,
    metaError := some err }

/-- `postProcessAnalysis(analysis, context)`: regenerate an ill-shaped
slug from the title, truncate title to 60 and description to 160. -/
def postProcessAnalysis (analysis : GrokAnalysis)
    (extracted fallbackTitle : JStr) : GrokAnalysis :=
  let slug0 := analysis.slug
  let slug :=
    if isLowerSlug slug0 then slug0
    else generateSlugFromTitle
      (if analysis.title = [] then fallbackTitle else analysis.title)
  let title0 := if analysis.title = [] then fallbackTitle else analysis.title
  let title := if 60 < title0.length then title0.take 57 ++ "...".data
    else title0
  let desc0 :=
    if analysis.description = [] then generateDescriptionFromContent extracted
    else analysis.description
  let desc := if 160 < desc0.length then desc0.take 157 ++ "...".data
    else desc0
  { slug := slug, title := title, description := desc }

/-- The retry loop of `ContentAnalyzer.analyzeContent`
(`while (attempt <= maxRetries)`, so `maxR + 1` attempts in total); the
`grok` oracle is `grokClient.analyzeContent` at a given attempt index
(the per-attempt temperature bump is folded into the index). -/
def analyzeLoop (grok : Nat → Except JsError GrokAnalysis) :
    Nat → Nat → Except JsError GrokAnalysis
  | remaining, attempt =>
    match grok attempt with
    | .ok a => .ok a
    | .error e =>
      match remaining with
      | 0 => .error e
      | rem + 1 => analyzeLoop grok rem (attempt + 1)

/-- `ContentAnalyzer.analyzeContent(htmlContent, options)`.  `purify`
models the DOMPurify-based `sanitizeHTML` method and `extractText` the
JSDOM-based `extractTextContent`; `grok` models the Grok client call.
The catch branch resolves with fallback metadata: the method itself
never rejects past the initial blank-input check. -/
def analyzeContent (purify extractText : JStr → JStr)
    (grok : Nat → Except JsError GrokAnalysis)
    (contentType fallbackTitle : JStr) (maxR : Nat) (skipSan : Bool)
    (html : JStr) : Except JsError AnalyzerOutput :=
  if html = [] || jsTrim html = [] then
    .error { name := "Error".data,
             message := "HTML content is required".data, status := none }
  else
    let sanitized := if skipSan then html else purify html
    let extracted := extractText sanitized
    match analyzeLoop grok maxR 0 with
    | .ok analysis =>
      let p := postProcessAnalysis analysis extracted fallbackTitle
      .ok { slug := p.slug, title := p.title, description := p.description,
            wordCount := getWordCount extracted,
            readingTime := calculateReadingTime extracted,
            contentType := contentType,
            features := featuresOf sanitized,
            tags := extractTags extracted,
            analyzerTag := "grok-content-analyzer".data,
            metaError := none }
    | .error e =>
      .ok (generateFallbackMetadata extractText html fallbackTitle e.message)

/-! ## Post model (`src/database/models/post.js`) -/

/-- The fields handed to `Post.create`. -/
structure PostFields where
  slug : JStr
  title : JStr
  description : JStr
  html_content : JStr
  discord_user_id : JStr
  discord_username : JStr
deriving DecidableEq

/-- A stored row of the `posts` table, as materialized by `Post`. -/
structure PostRow where
  id : Nat
  slug : JStr
  title : JStr
  description : JStr
  html_content : JStr
  discord_user_id : JStr
  discord_username : JStr
  created_at : JStr
  updated_at : JStr
deriving DecidableEq

/-- `post.validate()`: required fields must be non-blank and the slug
must match `/^[a-z0-9-]+$/`. -/
def postValidate (p : PostFields) : List JStr :=
  (if p.slug = [] || jsTrim p.slug = [] then ["Slug is required".data]
    else []) ++
  (if p.title = [] || jsTrim p.title = [] then ["Title is required".data]
    else []) ++
  (if p.description = [] || jsTrim p.description = [] then
    ["Description is required".data] else []) ++
  (if p.html_content = [] || jsTrim p.html_content = [] then
    ["HTML content is required".data] else []) ++
  (if p.discord_user_id = [] || jsTrim p.discord_user_id = [] then
    ["Discord user ID is required".data] else []) ++
  (if p.discord_username = [] || jsTrim p.discord_username = [] then
    ["Discord username is required".data] else []) ++
  (if p.slug ≠ [] && !isLowerSlug p.slug then
    ["Slug must contain only lowercase letters, numbers, and hyphens".data]
    else [])

/-- The autoincrement id SQLite would assign to the next insert. -/
def nextRowId (db : List PostRow) : Nat :=
  (db.map (·.id)).foldl max 0 + 1

/-- `Post.create(data)` over an explicit store:  validation errors throw
a plain `Error` before any database work; a row with the same slug
throws a plain `Error` naming the slug before the insert; otherwise the
row is inserted and returned materialized with its assigned id and
timestamps.  The returned store is unchanged on both failure paths. -/
def postCreate (now : JStr) (db : List PostRow) (data : PostFields) :
    Except JsError PostRow × List PostRow :=
  let errors := postValidate data
  if errors ≠ [] then
    (.error { name := "Error".data,
              message := "Validation failed: ".data ++
                joinSep ", ".data errors,
              status := none }, db)
  else if (db.find? fun r => r.slug == data.slug).isSome then
    (.error { name := "Error".data,
              message := "Post with slug '".data ++ data.slug ++
                "' already exists".data,
              status := none }, db)
  else
    let row : PostRow :=
      { id := nextRowId db, slug := data.slug, title := data.title,
        description := data.description, html_content := data.html_content,
        discord_user_id := data.discord_user_id,
        discord_username := data.discord_username,
        created_at := now, updated_at := now }
    (.ok row, db ++ [row])

/-! ## Content extraction (`src/bot/utils/file-handler.js`, code-block
path — the attachment path goes over the network and is out of model) -/

/-- `isValidHtml(content)`: non-blank and containing at least one
`<letter...>` tag (`tagCount >= 1` coincides with the tag test). -/
def isValidHtml (content : JStr) : Bool :=
  content ≠ [] && jsTrim content ≠ [] &&
    anyPos
      (fun l =>
        match l with
        | '<' :: d :: rest => isAsciiAlpha d && (ciFindIdx ['>'] rest).isSome
        | _ => false)
      content

/-- The lazy body of a fenced block: the shortest prefix after which
`\n?```  ` closes the fence (the greedy `\n?` is tried first at each
candidate length, exactly as the regex engine backtracks). -/
def fencedBody : JStr → Option JStr
  | [] => none
  | c :: r =>
    if c = '\n' && "```".data.isPrefixOf r then some []
    else if "```".data.isPrefixOf (c :: r) then some []
    else (fencedBody r).map (c :: ·)

/-- Match a fenced block starting here: the (case-insensitive) opener,
an optional newline, then the lazily captured body. -/
def matchFencedAt (opener : JStr) (l : JStr) : Option JStr :=
  if ciStartsWith opener l then
    let r0 := l.drop opener.length
    let r1 := if r0.head? = some '\n' then r0.drop 1 else r0
    fencedBody r1
  else none

/-- Leftmost fenced-block match over the whole message. -/
def findFenced (opener : JStr) : JStr → Option JStr
  | [] => matchFencedAt opener []
  | c :: r =>
    match matchFencedAt opener (c :: r) with
    | some cap => some cap
    | none => findFenced opener r

/-- The bodies of all inline-code spans ``  `([^`]+)`  `` in order (the
source strips the backticks of each match before use). -/
def inlineCodeBodiesGo : Nat → JStr → List JStr
  | _, [] => []
  | 0, _ => []
  | fuel + 1, c :: r =>
    if c = '`' then
      let body := r.takeWhile (· ≠ '`')
      if body ≠ [] && (r.drop body.length).head? = some '`' then
        body :: inlineCodeBodiesGo fuel (r.drop (body.length + 1))
      else inlineCodeBodiesGo fuel r
    else inlineCodeBodiesGo fuel r

/-- The bodies of all inline-code spans, scanned left to right. -/
def inlineCodeBodies (l : JStr) : List JStr :=
  inlineCodeBodiesGo l.length l

/-- The first inline-code body that is valid HTML longer than 20
characters after trimming. -/
def firstValidInline : List JStr → Option JStr
  | [] => none
  | b :: bs =>
    let content := jsTrim b
    if isValidHtml content && 20 < content.length then some content
    else firstValidInline bs

/-- `extractFromCodeBlock(messageContent)`: an `html`-tagged fence, then
any fence, then inline code, each subject to `isValidHtml`. -/
def extractFromCodeBlock (msg : JStr) : Option JStr :=
  let tryHtml :=
    match findFenced "```html".data msg with
    | some cap =>
      if cap ≠ [] && isValidHtml (jsTrim cap) then some (jsTrim cap) else none
    | none => none
  match tryHtml with
  | some c => some c
  | none =>
    let tryGeneric :=
      match findFenced "```".data msg with
      | some cap =>
        if cap ≠ [] && isValidHtml (jsTrim cap) then some (jsTrim cap)
        else none
      | none => none
    match tryGeneric with
    | some c => some c
    | none => firstValidInline (inlineCodeBodies msg)

/-- The extraction outcome consumed by the orchestrator. -/
structure ExtractData where
  content : JStr
  ctype : JStr
  filename : Option JStr
deriving DecidableEq

/-- `extractContent(message)` result shape. -/
inductive ExtractResult where
  | success (data : ExtractData)
  | failure (error : JStr)
deriving DecidableEq

/-- `extractContent(message)` for a message without attachments: the
code-block path, or the no-content failure. -/
def extractContentNoAttachment (msg : JStr) : ExtractResult :=
  match extractFromCodeBlock msg with
  | some c =>
    .success { content := c, ctype := "codeblock".data, filename := none }
  | none =>
    .failure
      "No HTML content found. Please upload an HTML file or use ```html code block```".data

/-! ## Submission orchestrator (`handlePoopCommand`,
`src/bot/commands/poop.js`) -/

/-- The user-visible outcome of one `!poop` invocation. -/
inductive HandlerOutcome where
  | noOp
  | errorReply (msg : JStr)
  | successReply (slug : JStr)
deriving DecidableEq

/-- The observable result of one orchestrator run: the outcome, the
created row if any, the store afterwards, and how many times
`Post.create` was invoked. -/
structure HandlerResult where
  outcome : HandlerOutcome
  created : Option PostRow
  db : List PostRow
  createCalls : Nat
deriving DecidableEq

/-- `String.prototype.includes` (case-sensitive substring test). -/
def jsIncludes (pat l : JStr) : Bool :=
  anyPos (pat.isPrefixOf ·) l

/-- The catch-branch message mapping of `handlePoopCommand`. -/
def errorMessageFor (e : JsError) : JStr :=
  if jsIncludes "Validation failed".data e.message then
    "❌ Invalid content format. Please check your HTML and try again.".data
  else if jsIncludes "slug".data e.message &&
      jsIncludes "exists".data e.message then
    "❌ A post with this title already exists. Please modify your content or title.".data
  else if jsIncludes "API".data e.message then
    "❌ AI analysis service is temporarily unavailable. Please try again later.".data
  else if jsIncludes "Database".data e.message then
    "❌ Database error occurred. Please contact an administrator.".data
  else
    "❌ Failed to process your content. Please try again.".data

/-- `handlePoopCommand(message)`.  `analyzer` stands for
`contentAnalyzer.analyzeContent` applied to the extracted content (the
option assembly — detected content type and the filename-derived
fallback title — is folded into it); `extractResult` is the outcome of
`extractContent(message)`.  The pipeline hands the **raw** extracted
`htmlContent` to `Post.create` as `html_content`; every thrown error is
caught and mapped to a user-facing reply. -/
def handlePoopCommand (analyzer : JStr → Except JsError AnalyzerOutput)
    (rng : Nat → Nat) (now : JStr) (db : List PostRow)
    (authorId authorName : JStr) (messageContent : JStr)
    (extractResult : ExtractResult) : HandlerResult :=
  if !("!poop".data.isPrefixOf messageContent) then
    { outcome := .noOp, created := none, db := db, createCalls := 0 }
  else
    match extractResult with
    | .failure err =>
      { outcome := .errorReply ("❌ ".data ++ err), created := none,
        db := db, createCalls := 0 }
    | .success data =>
      let htmlContent := data.content
      if htmlContent = [] || jsTrim htmlContent = [] then
        { outcome := .errorReply
            "❌ No HTML content found. Please upload an HTML file or use a code block with HTML content.".data,
          created := none, db := db, createCalls := 0 }
      else
        match analyzer htmlContent with
        | .error e =>
          { outcome := .errorReply (errorMessageFor e), created := none,
            db := db, createCalls := 0 }
        | .ok analysis =>
          let sanitizedSlug := cleanUserSlug rng analysis.slug
          match postCreate now db
            { slug := sanitizedSlug, title := analysis.title,
              description := analysis.description,
              html_content := htmlContent,
              discord_user_id := authorId,
              discord_username := authorName } with
          | (.error e, db') =>
            { outcome := .errorReply (errorMessageFor e), created := none,
              db := db', createCalls := 1 }
          | (.ok post, db') =>
            { outcome := .successReply post.slug, created := some post,
              db := db', createCalls := 1 }

/-! ## Concrete fixtures used by witnesses and counterexamples -/

/-- An identity-like deterministic stand-in for `Math.random` draws. -/
def rngSeq : Nat → Nat := fun i => i

/-- The interceptor-thrown error for an HTTP 503 response. -/
def err503 : JsError :=
  { name := "GrokAPIError".data,
    message := "API request failed: 503 - Service Unavailable".data,
    status := some 503 }

/-- The validation error thrown when the model response lacks
`description`. -/
def errMissingDescription : JsError :=
  { name := "GrokAPIError".data,
    message := "Missing required fields in response: description".data,
    status := none }

/-- A service that answers 503 on every attempt. -/
def always503 : Nat → Except JsError Nat := fun _ => .error err503

/-- A service that answers 503 on the first three attempts and succeeds
on the fourth. -/
def threeTimes503 : Nat → Except JsError Nat := fun k =>
  if k < 3 then .error err503 else .ok 42

/-- An existence predicate that is true everywhere except `x-101`
(so the first free numbered candidate is the 101st). -/
def takenBelow101 : JStr → Bool := fun s => !(s == "x-101".data)

/-- The existence predicate of the claim example: taken exactly on
`{x, x-1, x-2}`. -/
def takenUpTo2 : JStr → Bool := fun s =>
  s == "x".data || s == "x-1".data || s == "x-2".data

/-- A language-model analyzer oracle that always succeeds with fixed
metadata (stands for `contentAnalyzer.analyzeContent`). -/
def okAnalyzer : JStr → Except JsError AnalyzerOutput := fun _ =>
  .ok { slug := "hello".data, title := "Hello".data,
        description := "Greetings page".data,
        wordCount := 1, readingTime := 1, contentType := "general".data,
        features := { hasImages := false, hasLinks := false,
                      hasCode := false, hasLists := false },
        tags := [], analyzerTag := "grok-content-analyzer".data,
        metaError := none }

/-- The end-to-end scenario message: the script payload inside an
`html` code block. -/
def msgC1 : JStr :=
  "!poop ```html\n<h1>Hello</h1><script>alert(1)</script>\n```".data

/-- A store already holding a post at slug `hello`. -/
def dbWithHello : List PostRow :=
  [{ id := 1, slug := "hello".data, title := "First".data,
     description := "First post".data, html_content := "<p>x</p>".data,
     discord_user_id := "u0".data, discord_username := "bob".data,
     created_at := "2024-01-01".data, updated_at := "2024-01-01".data }]

/-- Valid creation fields at slug `x`. -/
def fieldsX : PostFields :=
  { slug := "x".data, title := "T".data, description := "D".data,
    html_content := "<p>c</p>".data, discord_user_id := "u1".data,
    discord_username := "alice".data }

/-- A store already holding a post at slug `x`. -/
def dbWithX : List PostRow :=
  [{ id := 7, slug := "x".data, title := "Old".data,
     description := "Old post".data, html_content := "<p>o</p>".data,
     discord_user_id := "u9".data, discord_username := "carol".data,
     created_at := "2023-01-01".data, updated_at := "2023-01-01".data }]

/-- The slug-existence predicate backed by a store. -/
def existsInDb (db : List PostRow) (s : JStr) : Bool :=
  (db.find? fun r => r.slug == s).isSome

deriving instance DecidableEq for Except

/-! # Theorems -/

/-! ## C2 — sanitizer script bypass -/

/-- C2: the spec states that for every input containing a `<script>`
element the output of `sanitizeHTML` contains no `<script` substring
(case-insensitively).  The code violates this: for the input
`<scr<script>x</script>ipt` — which contains the script element
`<script>x</script>` — removing the script element splices the
surrounding text into a fresh `<script`, and because no `'>'` follows,
every later pass leaves it untouched, so the sanitized output is exactly
the string `<script` (for every model of the URL parser). -/
theorem c2_script_bypass :
    ∀ parseProto : JStr → Option JStr,
      sanitizeHTML parseProto "<scr<script>x</script>ipt".data =
          "<script".data ∧
        ciContains "<script".data
          (sanitizeHTML parseProto "<scr<script>x</script>ipt".data) = true ∧
        ciContains "<script>x</script>".data
          "<scr<script>x</script>ipt".data = true :=
  fun _ => ⟨rfl, rfl, rfl⟩

/-! ## C3 — retry policy of the Grok client -/

theorem makeRequestGo_attempts_le (responses : Nat → Except JsError α) :
    ∀ remaining retries,
      (makeRequestGo responses remaining retries).2.1 ≤
        retries + remaining + 1 := by
  intro remaining
  induction remaining with
  | zero =>
    intro retries
    rw [makeRequestGo]
    split
    · simp
    · split
      · simp
      · simp
  | succ rem ih =>
    intro retries
    rw [makeRequestGo]
    split
    · simp
    · split
      · dsimp only
        have := ih (retries + 1)
        omega
      · simp

theorem makeRequestGo_all_transient (responses : Nat → Except JsError α)
    (e : JsError) (hr : shouldRetry e = true) :
    ∀ remaining retries, (∀ k, retries ≤ k → k ≤ retries + remaining →
        responses k = .error e) →
      (makeRequestGo responses remaining retries).1 = .error e ∧
        (makeRequestGo responses remaining retries).2.1 =
          retries + remaining + 1 := by
  intro remaining
  induction remaining with
  | zero =>
    intro retries h
    have h0 := h retries (le_refl _) (by omega)
    rw [makeRequestGo, h0]
    try dsimp only
    rw [if_pos hr]
    exact ⟨rfl, rfl⟩
  | succ rem ih =>
    intro retries h
    have h0 := h retries (le_refl _) (by omega)
    have hrec := ih (retries + 1) (fun k hk1 hk2 => h k (by omega) (by omega))
    rw [makeRequestGo, h0]
    try dsimp only
    rw [if_pos hr]
    try dsimp only
    exact ⟨hrec.1, by omega⟩

/-- C3 counterexample: the claim says at most 3 attempts in total and,
given 3 consecutive 503 responses, a terminal error after exactly 3
attempts with no 4th attempt.  The code's `maxRetries = 3` counts
retries, not attempts: with 503 on the first three attempts and success
on the fourth, `makeRequest` succeeds on a 4th attempt, and under
persistent 503 it fails only after 4 attempts (backoffs 1s, 2s, 4s). -/
theorem c3_counterexample :
    (makeRequest threeTimes503).1 = .ok 42 ∧
      (makeRequest threeTimes503).2.1 = 4 ∧
      (makeRequest always503).2.1 = 4 ∧
      (makeRequest always503).2.2 = [1000, 2000, 4000] := by
  decide

/-- C3 (amended): the client retries only on a `GrokAPIError` with
status 429, 502, 503 or 504, with exponential backoff
(`retryDelay * 2^k`); it makes at most 4 attempts in total (one initial
attempt plus `maxRetries = 3` retries); any other first failure is
terminal immediately after a single attempt; with a transient error on
every one of the first four attempts, it raises that error after
exactly 4 attempts. -/
theorem c3_amended (responses : Nat → Except JsError α) :
    (makeRequest responses).2.1 ≤ 4 ∧
      (∀ e, responses 0 = .error e → shouldRetry e = false →
        makeRequest responses = (.error e, 1, [])) ∧
      (∀ e, shouldRetry e = true → (∀ k, k ≤ 3 → responses k = .error e) →
        (makeRequest responses).1 = .error e ∧
          (makeRequest responses).2.1 = 4) ∧
      (∀ e, shouldRetry e = true ↔
        e.name = "GrokAPIError".data ∧
          (e.status = some 429 ∨ e.status = some 502 ∨
            e.status = some 503 ∨ e.status = some 504)) := by
  refine ⟨?_, ?_, ?_, ?_⟩
  · have := makeRequestGo_attempts_le responses 3 0
    simpa [makeRequest] using this
  · intro e h0 hr
    rw [makeRequest, makeRequestGo, h0]
    try dsimp only
    rw [if_neg (by simp [hr])]
  · intro e hr hall
    have := makeRequestGo_all_transient responses e hr 3 0
      (fun k h1 h2 => hall k (by omega))
    simpa [makeRequest] using this
  · intro e
    simp [shouldRetry]
    tauto

/-- C3 witness: the amended theorem applied to the persistent-503
service. -/
theorem c3_witness :
    (makeRequest always503).1 = .error err503 ∧
      (makeRequest always503).2.1 = 4 :=
  (c3_amended always503).2.2.1 err503 (by decide) (fun k _ => rfl)

/-! ## C6 — `Post.create` -/

theorem postCreate_spec (now : JStr) (db : List PostRow) (data : PostFields) :
    (postValidate data ≠ [] →
      postCreate now db data =
        (.error { name := "Error".data,
                  message := "Validation failed: ".data ++
                    joinSep ", ".data (postValidate data),
                  status := none }, db)) ∧
      (postValidate data = [] →
        (db.find? fun r => r.slug == data.slug).isSome = true →
        postCreate now db data =
          (.error { name := "Error".data,
                    message := "Post with slug '".data ++ data.slug ++
                      "' already exists".data,
                    status := none }, db)) ∧
      (postValidate data = [] →
        (db.find? fun r => r.slug == data.slug).isSome = false →
        postCreate now db data =
          (.ok { id := nextRowId db, slug := data.slug, title := data.title,
                 description := data.description,
                 html_content := data.html_content,
                 discord_user_id := data.discord_user_id,
                 discord_username := data.discord_username,
                 created_at := now, updated_at := now },
            db ++
              [{ id := nextRowId db, slug := data.slug, title := data.title,
                 description := data.description,
                 html_content := data.html_content,
                 discord_user_id := data.discord_user_id,
                 discord_username := data.discord_username,
                 created_at := now, updated_at := now }])) := by
  refine ⟨?_, ?_, ?_⟩
  · intro h1
    simp [postCreate, h1]
  · intro h1 h2
    simp [postCreate, h1, h2]
  · intro h1 h2
    simp [postCreate, h1, h2]

/-- C6 counterexample: creating a post whose slug `x` already exists in
the store fails, but with a plain `Error` (constructor name `Error`, not
a typed `DuplicateSlugError` — no such class exists in the code base);
only the message names the slug. -/
theorem c6_counterexample :
    postCreate "2025-01-01".data dbWithX fieldsX =
      (.error { name := "Error".data,
                message := "Post with slug 'x' already exists".data,
                status := none }, dbWithX) ∧
      ¬("Error".data = "DuplicateSlugError".data) := by
  decide

/-- C6 (amended): `Post.create` validates that all required fields are
non-blank and the slug matches `/^[a-z0-9-]+$/`, then checks for an
existing row with the same slug; on validation failure it throws a plain
`Error` listing the errors and the store is unchanged; on a duplicate it
throws a plain `Error` whose message names the slug (not a typed
`DuplicateSlugError`) and inserts nothing; otherwise it inserts and
returns the materialized row with the assigned id and timestamps. -/
theorem c6_amended (now : JStr) (db : List PostRow) (data : PostFields) :
    (postValidate data ≠ [] →
      postCreate now db data =
        (.error { name := "Error".data,
                  message := "Validation failed: ".data ++
                    joinSep ", ".data (postValidate data),
                  status := none }, db)) ∧
      (postValidate data = [] →
        (db.find? fun r => r.slug == data.slug).isSome = true →
        postCreate now db data =
          (.error { name := "Error".data,
                    message := "Post with slug '".data ++ data.slug ++
                      "' already exists".data,
                    status := none }, db)) ∧
      (postValidate data = [] →
        (db.find? fun r => r.slug == data.slug).isSome = false →
        postCreate now db data =
          (.ok { id := nextRowId db, slug := data.slug, title := data.title,
                 description := data.description,
                 html_content := data.html_content,
                 discord_user_id := data.discord_user_id,
                 discord_username := data.discord_username,
                 created_at := now, updated_at := now },
            db ++
              [{ id := nextRowId db, slug := data.slug, title := data.title,
                 description := data.description,
                 html_content := data.html_content,
                 discord_user_id := data.discord_user_id,
                 discord_username := data.discord_username,
                 created_at := now, updated_at := now }])) :=
  postCreate_spec now db data

/-- C6 witness: the amended theorem applied to the duplicate-slug
scenario. -/
theorem c6_witness :
    postCreate "2025-01-01".data dbWithX fieldsX =
      (.error { name := "Error".data,
                message := "Post with slug '".data ++ "x".data ++
                  "' already exists".data,
                status := none }, dbWithX) :=
  (c6_amended "2025-01-01".data dbWithX fieldsX).2.1 (by decide) (by decide)

/-! ## C1 / C7 — the submission orchestrator -/

theorem postCreate_ok_html (now : JStr) (db : List PostRow)
    (data : PostFields) (row : PostRow) (db' : List PostRow)
    (h : postCreate now db data = (.ok row, db')) :
    row.html_content = data.html_content := by
  by_cases h1 : postValidate data = []
  · by_cases h2 : (db.find? fun r => r.slug == data.slug).isSome = true
    · rw [(postCreate_spec now db data).2.1 h1 h2] at h
      simp at h
    · rw [(postCreate_spec now db data).2.2 h1 (by simpa using h2)] at h
      rw [Prod.mk.injEq] at h
      have h3 := h.1
      rw [Except.ok.injEq] at h3
      rw [← h3]
  · rw [(postCreate_spec now db data).1 h1] at h
    simp at h

theorem postCreate_error_db (now : JStr) (db : List PostRow)
    (data : PostFields) (e : JsError) (db' : List PostRow)
    (h : postCreate now db data = (.error e, db')) :
    db' = db := by
  by_cases h1 : postValidate data = []
  · by_cases h2 : (db.find? fun r => r.slug == data.slug).isSome = true
    · rw [(postCreate_spec now db data).2.1 h1 h2] at h
      rw [Prod.mk.injEq] at h
      exact h.2.symm
    · rw [(postCreate_spec now db data).2.2 h1 (by simpa using h2)] at h
      simp at h
  · rw [(postCreate_spec now db data).1 h1] at h
    rw [Prod.mk.injEq] at h
    exact h.2.symm

/-- C1 counterexample: for the end-to-end scenario message with
`<h1>Hello</h1><script>alert(1)</script>` in an `html` code block, the
orchestrator creates the post successfully, but the stored
`html_content` is the raw extracted string including the script
element — not the sanitizer output `<h1>Hello</h1>` the claim
requires. -/
theorem c1_counterexample :
    ((handlePoopCommand okAnalyzer rngSeq "2025-01-01".data [] "u1".data
        "alice".data msgC1 (extractContentNoAttachment msgC1)).created).map
        (·.html_content) =
      some "<h1>Hello</h1><script>alert(1)</script>".data ∧
    ¬(((handlePoopCommand okAnalyzer rngSeq "2025-01-01".data [] "u1".data
        "alice".data msgC1 (extractContentNoAttachment msgC1)).created).map
        (·.html_content) =
      some "<h1>Hello</h1>".data) ∧
    (handlePoopCommand okAnalyzer rngSeq "2025-01-01".data [] "u1".data
        "alice".data msgC1 (extractContentNoAttachment msgC1)).outcome =
      .successReply "hello".data := by
  decide

/-- C1 (amended): every Post persisted through `handlePoopCommand`
stores the raw extracted content as `html_content`; sanitization is only
applied to the copy sent to the analyzer.  Whenever a run over any
analyzer, store and message creates a row, that row's `html_content`
equals the extracted `content` verbatim. -/
theorem c1_amended (analyzer : JStr → Except JsError AnalyzerOutput)
    (rng : Nat → Nat) (now : JStr) (db : List PostRow)
    (authorId authorName msg : JStr) (data : ExtractData) :
    ((handlePoopCommand analyzer rng now db authorId authorName msg
        (.success data)).created).map (·.html_content) = none ∨
      ((handlePoopCommand analyzer rng now db authorId authorName msg
        (.success data)).created).map (·.html_content) = some data.content := by
  unfold handlePoopCommand
  dsimp only
  split
  · left; rfl
  · split
    · left; rfl
    · split
      · left; rfl
      · split
        · left; rfl
        · right
          rename_i post db' heq
          have hh := postCreate_ok_html _ _ _ _ _ heq
          simp [hh]

/-- C7 counterexample: with a post already stored at slug `hello` and an
analysis resolving to that slug, the orchestrator reports the rejection
reply after a single `Post.create` call — no slug re-resolution happens
(the resolver, had it been invoked, would have produced the free slug
`hello-1`), the store is unchanged and nothing is created. -/
theorem c7_counterexample :
    handlePoopCommand okAnalyzer rngSeq "2025-01-01".data dbWithHello
        "u1".data "alice".data msgC1 (extractContentNoAttachment msgC1) =
      { outcome := .errorReply
          "❌ A post with this title already exists. Please modify your content or title.".data,
        created := none, db := dbWithHello, createCalls := 1 } ∧
      generateUniqueSlug (existsInDb dbWithHello) rngSeq "hello".data =
        "hello-1".data := by
  decide

/-- C7 (amended): a store-level duplicate-slug failure is reported as
rejected immediately: the orchestrator makes exactly one `Post.create`
call (never more than one in any run), performs no slug re-resolution,
maps the error to the duplicate-reply message, and leaves the store
unchanged with nothing created. -/
theorem c7_amended (analyzer : JStr → Except JsError AnalyzerOutput)
    (rng : Nat → Nat) (now : JStr) (db : List PostRow)
    (authorId authorName msg : JStr) (data : ExtractData) :
    (handlePoopCommand analyzer rng now db authorId authorName msg
        (.success data)).createCalls ≤ 1 ∧
      (∀ analysis e,
        "!poop".data.isPrefixOf msg = true →
        data.content ≠ [] →
        jsTrim data.content ≠ [] →
        analyzer data.content = .ok analysis →
        (postCreate now db
          { slug := cleanUserSlug rng analysis.slug,
            title := analysis.title,
            description := analysis.description,
            html_content := data.content,
            discord_user_id := authorId,
            discord_username := authorName }).1 = .error e →
        handlePoopCommand analyzer rng now db authorId authorName msg
            (.success data) =
          { outcome := .errorReply (errorMessageFor e), created := none,
            db := db, createCalls := 1 }) := by
  constructor
  · unfold handlePoopCommand
    dsimp only
    split
    · simp
    · split
      · simp
      · split
        · simp
        · split
          · simp
          · simp
  · intro analysis e hp hne1 hne2 ha hc
    unfold handlePoopCommand
    dsimp only
    rw [if_neg (by simp [hp])]
    rw [if_neg (by simp [hne1, hne2])]
    rw [ha]
    dsimp only
    rcases hpc : postCreate now db
        { slug := cleanUserSlug rng analysis.slug,
          title := analysis.title,
          description := analysis.description,
          html_content := data.content,
          discord_user_id := authorId,
          discord_username := authorName } with ⟨res, db2⟩
    rw [hpc] at hc
    dsimp only at hc
    subst hc
    dsimp only
    rw [postCreate_error_db now db _ e db2 hpc]

/-- C7 witness: the amended theorem applied to the duplicate scenario
(store already holding slug `hello`). -/
theorem c7_witness :
    handlePoopCommand okAnalyzer rngSeq "2025-01-01".data dbWithHello
        "u1".data "alice".data msgC1
        (.success { content := "<h1>Hello</h1><script>alert(1)</script>".data,
                    ctype := "codeblock".data, filename := none }) =
      { outcome := .errorReply
          (errorMessageFor
            { name := "Error".data,
              message := "Post with slug '".data ++ "hello".data ++
                "' already exists".data,
              status := none }),
        created := none, db := dbWithHello, createCalls := 1 } :=
  (c7_amended okAnalyzer rngSeq "2025-01-01".data dbWithHello "u1".data
      "alice".data msgC1
      { content := "<h1>Hello</h1><script>alert(1)</script>".data,
        ctype := "codeblock".data, filename := none }).2
    _ _ (by decide) (by decide) (by decide) rfl (by decide)

/-! ## C8 / C10 — `generateUniqueSlug` -/

theorem uniqueGo_trace_len (existsCb : JStr → Bool) (base : JStr)
    (rng : Nat → Nat) :
    ∀ remaining slug counter,
      (generateUniqueSlugGo existsCb base rng remaining slug
        counter).2.length ≤ remaining + 1 := by
  intro remaining
  induction remaining with
  | zero =>
    intro slug counter
    rw [generateUniqueSlugGo]
    split
    · simp
    · simp
  | succ rem ih =>
    intro slug counter
    rw [generateUniqueSlugGo]
    split
    · dsimp only
      have := ih (base ++ '-' :: natToJStr counter) (counter + 1)
      simp only [List.length_cons]
      omega
    · simp

theorem uniqueGo_trace_mem (existsCb : JStr → Bool) (base : JStr)
    (rng : Nat → Nat) :
    ∀ remaining counter slug s,
      s ∈ (generateUniqueSlugGo existsCb base rng remaining slug
        counter).2 →
      s = slug ∨ ∃ k, counter ≤ k ∧ k < counter + remaining ∧
        s = base ++ '-' :: natToJStr k := by
  intro remaining
  induction remaining with
  | zero =>
    intro counter slug s hs
    rw [generateUniqueSlugGo] at hs
    split at hs
    · simp at hs; exact Or.inl hs
    · simp at hs; exact Or.inl hs
  | succ rem ih =>
    intro counter slug s hs
    rw [generateUniqueSlugGo] at hs
    split at hs
    · dsimp only at hs
      rcases List.mem_cons.mp hs with h | h
      · exact Or.inl h
      · rcases ih (counter + 1) (base ++ '-' :: natToJStr counter) s h with
          h2 | ⟨k, hk1, hk2, hk3⟩
        · exact Or.inr ⟨counter, le_refl _, by omega, h2⟩
        · exact Or.inr ⟨k, by omega, by omega, hk3⟩
    · simp at hs; exact Or.inl hs

theorem uniqueGo_all_taken (existsCb : JStr → Bool) (base : JStr)
    (rng : Nat → Nat) :
    ∀ remaining counter slug, existsCb slug = true →
      (∀ k, counter ≤ k → k < counter + remaining →
        existsCb (base ++ '-' :: natToJStr k) = true) →
      (generateUniqueSlugGo existsCb base rng remaining slug counter).1 =
        base ++ '-' :: generateRandomString rng 8 := by
  intro remaining
  induction remaining with
  | zero =>
    intro counter slug hs _
    rw [generateUniqueSlugGo, if_pos hs]
  | succ rem ih =>
    intro counter slug hs hall
    rw [generateUniqueSlugGo, if_pos hs]
    dsimp only
    exact ih (counter + 1) (base ++ '-' :: natToJStr counter)
      (hall counter (le_refl _) (by omega))
      (fun k h1 h2 => hall k (by omega) (by omega))

theorem uniqueGo_first_free (existsCb : JStr → Bool) (base : JStr)
    (rng : Nat → Nat) (N : Nat) (hfree : existsCb (base ++ '-' :: natToJStr N) = false) :
    ∀ remaining counter slug, counter + remaining = 101 → counter ≤ N →
      N ≤ 100 → existsCb slug = true →
      (∀ m, counter ≤ m → m < N →
        existsCb (base ++ '-' :: natToJStr m) = true) →
      (generateUniqueSlugGo existsCb base rng remaining slug counter).1 =
        base ++ '-' :: natToJStr N := by
  intro remaining
  induction remaining with
  | zero =>
    intro counter slug hsum hcN hN _ _
    omega
  | succ rem ih =>
    intro counter slug hsum hcN hN hs hall
    rw [generateUniqueSlugGo, if_pos hs]
    dsimp only
    by_cases hceq : counter = N
    · subst hceq
      rw [generateUniqueSlugGo.eq_def]
      dsimp only
      rw [if_neg (by simp [hfree])]
    · exact ih (counter + 1) (base ++ '-' :: natToJStr counter)
        (by omega) (by omega) hN
        (hall counter (le_refl _) (by omega))
        (fun m h1 h2 => hall m (by omega) h2)

theorem natToJStr_len_le_three (k : Nat) (hk : k ≤ 100) :
    (natToJStr k).length ≤ 3 := by
  have hall : ((List.range 101).all
      fun k => decide ((natToJStr k).length ≤ 3)) = true := by decide
  have hmem : k ∈ List.range 101 := List.mem_range.mpr (by omega)
  simpa using List.all_eq_true.mp hall k hmem

/-- C10: `generateUniqueSlug` invokes the existence predicate at most
101 times, every checked candidate is the base slug or `base-k` with
`1 ≤ k ≤ 100`, and when all of those are taken the result is the random
`base-<random8>` fallback, which is never itself existence-checked
(it does not occur among the checked candidates). -/
theorem c10_theorem (existsCb : JStr → Bool) (rng : Nat → Nat)
    (base : JStr) :
    (generateUniqueSlugTrace existsCb rng base).2.length ≤ 101 ∧
      (∀ s ∈ (generateUniqueSlugTrace existsCb rng base).2,
        s = base ∨ ∃ k, 1 ≤ k ∧ k ≤ 100 ∧
          s = base ++ '-' :: natToJStr k) ∧
      (existsCb base = true →
        (∀ k, 1 ≤ k → k ≤ 100 →
          existsCb (base ++ '-' :: natToJStr k) = true) →
        generateUniqueSlug existsCb rng base =
            base ++ '-' :: generateRandomString rng 8 ∧
          generateUniqueSlug existsCb rng base ∉
            (generateUniqueSlugTrace existsCb rng base).2) := by
  refine ⟨?_, ?_, ?_⟩
  · have := uniqueGo_trace_len existsCb base rng 100 base 1
    simpa [generateUniqueSlugTrace] using this
  · intro s hs
    have := uniqueGo_trace_mem existsCb base rng 100 1 base s
      (by simpa [generateUniqueSlugTrace] using hs)
    rcases this with h | ⟨k, h1, h2, h3⟩
    · exact Or.inl h
    · exact Or.inr ⟨k, h1, by omega, h3⟩
  · intro hbase hall
    have hres : generateUniqueSlug existsCb rng base =
        base ++ '-' :: generateRandomString rng 8 := by
      have := uniqueGo_all_taken existsCb base rng 100 1 base hbase
        (fun k hk1 hk2 => hall k hk1 (by omega))
      simpa [generateUniqueSlug, generateUniqueSlugTrace] using this
    refine ⟨hres, ?_⟩
    intro hmem
    have hform := uniqueGo_trace_mem existsCb base rng 100 1 base _
      (by simpa [generateUniqueSlugTrace] using hmem)
    rw [hres] at hform
    have hlen8 : (generateRandomString rng 8).length = 8 := by
      simp [generateRandomString]
    rcases hform with h | ⟨k, hk1, hk2, hk3⟩
    · have := congrArg List.length h
      simp [hlen8] at this
    · have := List.append_cancel_left hk3
      have h2 := List.tail_eq_of_cons_eq this
      have := congrArg List.length h2
      rw [hlen8] at this
      have h3 := natToJStr_len_le_three k (by omega)
      omega

/-- C10 witness: with an existence predicate that is always true, the
loop checks 101 candidates and returns the random fallback, which was
never checked. -/
theorem c10_witness :
    (generateUniqueSlugTrace (fun _ => true) rngSeq "x".data).2.length ≤
        101 ∧
      generateUniqueSlug (fun _ => true) rngSeq "x".data =
        "x".data ++ '-' :: generateRandomString rngSeq 8 ∧
      generateUniqueSlug (fun _ => true) rngSeq "x".data ∉
        (generateUniqueSlugTrace (fun _ => true) rngSeq "x".data).2 :=
  ⟨(c10_theorem (fun _ => true) rngSeq "x".data).1,
    ((c10_theorem (fun _ => true) rngSeq "x".data).2.2 rfl
      (fun _ _ _ => rfl)).1,
    ((c10_theorem (fun _ => true) rngSeq "x".data).2.2 rfl
      (fun _ _ _ => rfl)).2⟩

/-- C8 counterexample: with an existence predicate that is true
everywhere except `x-101` (so base and `x-1` … `x-100` are all taken and
the first free numbered candidate is `x-101`), the code does not return
the first free `base-N`: it gives up after `x-100` and returns the
random fallback `x-abcdefgh` instead of `x-101`. -/
theorem c8_counterexample :
    takenBelow101 "x".data = true ∧
      ((List.range' 1 100).all fun k =>
        takenBelow101 ("x".data ++ '-' :: natToJStr k)) = true ∧
      takenBelow101 ("x".data ++ '-' :: natToJStr 101) = false ∧
      generateUniqueSlug takenBelow101 rngSeq "x".data =
        "x-abcdefgh".data ∧
      ¬(generateUniqueSlug takenBelow101 rngSeq "x".data =
        "x".data ++ '-' :: natToJStr 101) := by
  decide

/-- C8 (amended): `generateUniqueSlug` returns the base slug unchanged
when the existence predicate is false on it; otherwise it returns the
first `base-N` (`N = 1, 2, …`) on which the predicate is false,
provided such an `N` exists with `N ≤ 100` — beyond `base-100` the
bounded loop falls back to `base-<random8>`.  In particular, with a
predicate true exactly on `{x, x-1, x-2}`, the result is `x-3`. -/
theorem c8_amended (existsCb : JStr → Bool) (rng : Nat → Nat)
    (base : JStr) :
    (existsCb base = false →
      generateUniqueSlug existsCb rng base = base) ∧
      (∀ N, 1 ≤ N → N ≤ 100 → existsCb base = true →
        (∀ m, 1 ≤ m → m < N →
          existsCb (base ++ '-' :: natToJStr m) = true) →
        existsCb (base ++ '-' :: natToJStr N) = false →
        generateUniqueSlug existsCb rng base =
          base ++ '-' :: natToJStr N) := by
  constructor
  · intro h
    rw [generateUniqueSlug, generateUniqueSlugTrace, generateUniqueSlugGo,
      if_neg (by simp [h])]
  · intro N h1 h100 hbase hall hfree
    have := uniqueGo_first_free existsCb base rng N hfree 100 1 base
      (by omega) h1 h100 hbase (fun m hm1 hm2 => hall m hm1 hm2)
    simpa [generateUniqueSlug, generateUniqueSlugTrace] using this

/-- C8 witness: the claim's own example — the predicate true exactly on
`{x, x-1, x-2}` yields `x-3` — via the amended theorem. -/
theorem c8_witness :
    generateUniqueSlug takenUpTo2 rngSeq "x".data =
      "x".data ++ '-' :: natToJStr 3 :=
  (c8_amended takenUpTo2 rngSeq "x".data).2 3 (by decide) (by decide)
    (by decide)
    (fun m h1 h2 => by interval_cases m <;> decide)
    (by decide)

/-! ## C9 — HTML escape/unescape round trip -/

theorem escChar_eq_self (c : Char) (h1 : c ≠ '&') (h2 : c ≠ '<')
    (h3 : c ≠ '>') (h4 : c ≠ '"') (h5 : c ≠ '\'') (h6 : c ≠ '/') :
    escChar c = [c] := by
  rw [escChar.eq_def]
  split <;> simp_all

theorem unescapeGo_cons_ne (fuel : Nat) (c : Char) (rest : JStr) (h : c ≠ '&') :
    unescapeGo (fuel + 1) (c :: rest) = c :: unescapeGo fuel rest := by
  rw [unescapeGo]
  rw [if_neg h]

theorem unescapeGo_escape (s : JStr) : ∀ fuel, (escapeHTML s).length ≤ fuel →
    unescapeGo fuel (escapeHTML s) = s := by
  induction s with
  | nil => intro fuel _; cases fuel <;> rfl
  | cons c t ih =>
    intro fuel hf
    by_cases h1 : c = '&'
    · subst h1
      have he : escapeHTML ('&' :: t) = '&' :: 'a' :: 'm' :: 'p' :: ';' :: escapeHTML t := rfl
      rw [he] at hf ⊢
      obtain ⟨f, rfl⟩ : ∃ f, fuel = f + 1 := ⟨fuel - 1, by simp at hf; omega⟩
      show '&' :: unescapeGo f (escapeHTML t) = '&' :: t
      rw [ih f (by simp at hf; omega)]
    · by_cases h2 : c = '<'
      · subst h2
        have he : escapeHTML ('<' :: t) = '&' :: 'l' :: 't' :: ';' :: escapeHTML t := rfl
        rw [he] at hf ⊢
        obtain ⟨f, rfl⟩ : ∃ f, fuel = f + 1 := ⟨fuel - 1, by simp at hf; omega⟩
        show '<' :: unescapeGo f (escapeHTML t) = '<' :: t
        rw [ih f (by simp at hf; omega)]
      · by_cases h3 : c = '>'
        · subst h3
          have he : escapeHTML ('>' :: t) = '&' :: 'g' :: 't' :: ';' :: escapeHTML t := rfl
          rw [he] at hf ⊢
          obtain ⟨f, rfl⟩ : ∃ f, fuel = f + 1 := ⟨fuel - 1, by simp at hf; omega⟩
          show '>' :: unescapeGo f (escapeHTML t) = '>' :: t
          rw [ih f (by simp at hf; omega)]
        · by_cases h4 : c = '"'
          · subst h4
            have he : escapeHTML ('"' :: t) = '&' :: 'q' :: 'u' :: 'o' :: 't' :: ';' :: escapeHTML t := rfl
            rw [he] at hf ⊢
            obtain ⟨f, rfl⟩ : ∃ f, fuel = f + 1 := ⟨fuel - 1, by simp at hf; omega⟩
            show '"' :: unescapeGo f (escapeHTML t) = '"' :: t
            rw [ih f (by simp at hf; omega)]
          · by_cases h5 : c = '\''
            · subst h5
              have he : escapeHTML ('\'' :: t) = '&' :: '#' :: '3' :: '9' :: ';' :: escapeHTML t := rfl
              rw [he] at hf ⊢
              obtain ⟨f, rfl⟩ : ∃ f, fuel = f + 1 := ⟨fuel - 1, by simp at hf; omega⟩
              show '\'' :: unescapeGo f (escapeHTML t) = '\'' :: t
              rw [ih f (by simp at hf; omega)]
            · by_cases h6 : c = '/'
              · subst h6
                have he : escapeHTML ('/' :: t) = '&' :: '#' :: 'x' :: '2' :: 'F' :: ';' :: escapeHTML t := rfl
                rw [he] at hf ⊢
                obtain ⟨f, rfl⟩ : ∃ f, fuel = f + 1 := ⟨fuel - 1, by simp at hf; omega⟩
                show '/' :: unescapeGo f (escapeHTML t) = '/' :: t
                rw [ih f (by simp at hf; omega)]
              · have he : escapeHTML (c :: t) = c :: escapeHTML t := by
                  show escChar c ++ escapeHTML t = c :: escapeHTML t
                  rw [escChar_eq_self c h1 h2 h3 h4 h5 h6]; rfl
                rw [he] at hf ⊢
                obtain ⟨f, rfl⟩ : ∃ f, fuel = f + 1 := ⟨fuel - 1, by simp at hf; omega⟩
                rw [unescapeGo_cons_ne f c _ h1]
                rw [ih f (by simp at hf; omega)]

/-- C9: escaping followed by unescaping is the identity on every string,
including strings already containing entity sequences such as `&amp;`
(whose ampersand is escaped to `&amp;amp;` and restored by the single
entity match at its position). -/
theorem c9_escape_roundtrip : ∀ s : JStr, unescapeHTML (escapeHTML s) = s :=
  fun s => unescapeGo_escape s _ (le_refl _)

/-! ## C5 — analyzer fallback on terminal failure -/

theorem genDesc_bounds (content : JStr) :
    generateDescriptionFromContent content ≠ [] ∧
    (generateDescriptionFromContent content).length ≤ 160 := by
  unfold generateDescriptionFromContent
  split
  · exact ⟨by decide, by decide⟩
  · rename_i hblank
    dsimp only
    split
    · rename_i s rest hs
      have hmem : s ∈ (splitRuns (fun c => c = '.' || c = '!' || c = '?')
          content).filter (fun s => 10 < (jsTrim s).length) :=
        hs ▸ List.mem_cons_self s rest
      have hp := List.of_mem_filter hmem
      simp only [decide_eq_true_eq] at hp
      split
      · rename_i hlen
        constructor
        · apply List.ne_nil_of_length_pos
          simp [List.length_append, List.length_take]
        · simp [List.length_append, List.length_take]
      · rename_i hlen
        constructor
        · intro hnil
          rw [hnil] at hp
          simp at hp
        · omega
    · rename_i hs
      simp only [Bool.or_eq_true, decide_eq_true_eq, not_or] at hblank
      split
      · rename_i hlen
        constructor
        · apply List.ne_nil_of_length_pos
          simp [List.length_append, List.length_take]
        · simp [List.length_append, List.length_take]
      · rename_i hlen
        exact ⟨hblank.1, by omega⟩

theorem analyzeLoop_all_fail (grok : Nat → Except JsError GrokAnalysis)
    (hfail : ∀ a, ∃ e, grok a = .error e) :
    ∀ rem att, ∃ e, analyzeLoop grok rem att = .error e := by
  intro rem
  induction rem with
  | zero =>
    intro att
    obtain ⟨e, he⟩ := hfail att
    exact ⟨e, by rw [analyzeLoop, he]⟩
  | succ n ih =>
    intro att
    obtain ⟨e, he⟩ := hfail att
    obtain ⟨e2, he2⟩ := ih (att + 1)
    exact ⟨e2, by rw [analyzeLoop, he]; exact he2⟩

/-- C5: on any terminal failure of the external analysis call (every
attempt of the retry loop rejects — covering in particular the
validation error for a response missing `description`), `analyzeContent`
on non-blank input does not reject but resolves with the deterministic
fallback metadata computed from local data alone; that fallback carries
the fallback analyzer tag, its description is non-empty and at most 160
characters, and its slug is derived from the fallback title. -/
theorem c5_theorem (purify extractText : JStr → JStr)
    (grok : Nat → Except JsError GrokAnalysis)
    (contentType fallbackTitle : JStr) (maxR : Nat) (skipSan : Bool)
    (html : JStr) (h1 : html ≠ []) (h2 : jsTrim html ≠ [])
    (hfail : ∀ a, ∃ e, grok a = .error e) :
    ∃ e, analyzeLoop grok maxR 0 = .error e ∧
      analyzeContent purify extractText grok contentType fallbackTitle maxR
          skipSan html =
        .ok (generateFallbackMetadata extractText html fallbackTitle
          e.message) ∧
      (generateFallbackMetadata extractText html fallbackTitle
        e.message).analyzerTag = "fallback-analyzer".data ∧
      (generateFallbackMetadata extractText html fallbackTitle
        e.message).description ≠ [] ∧
      (generateFallbackMetadata extractText html fallbackTitle
        e.message).description.length ≤ 160 ∧
      (generateFallbackMetadata extractText html fallbackTitle
        e.message).slug = generateSlugFromTitle fallbackTitle := by
  obtain ⟨e, he⟩ := analyzeLoop_all_fail grok hfail maxR 0
  refine ⟨e, he, ?_, rfl, ?_, ?_, rfl⟩
  · unfold analyzeContent
    rw [if_neg (by simp [h1, h2])]
    dsimp only
    rw [he]
  · exact (genDesc_bounds (extractText html)).1
  · exact (genDesc_bounds (extractText html)).2

/-- C5 witness: a Grok oracle whose every attempt rejects with the
missing-description validation error, on a concrete non-blank input. -/
theorem c5_witness :
    ∃ e, analyzeLoop (fun _ => .error errMissingDescription) 2 0 = .error e ∧
      analyzeContent id id (fun _ => .error errMissingDescription)
          "general".data "Hello World".data 2 false
          "<h1>Hello World</h1>".data =
        .ok (generateFallbackMetadata id "<h1>Hello World</h1>".data
          "Hello World".data e.message) ∧
      (generateFallbackMetadata id "<h1>Hello World</h1>".data
        "Hello World".data e.message).analyzerTag =
        "fallback-analyzer".data ∧
      (generateFallbackMetadata id "<h1>Hello World</h1>".data
        "Hello World".data e.message).description ≠ [] ∧
      (generateFallbackMetadata id "<h1>Hello World</h1>".data
        "Hello World".data e.message).description.length ≤ 160 ∧
      (generateFallbackMetadata id "<h1>Hello World</h1>".data
        "Hello World".data e.message).slug =
        generateSlugFromTitle "Hello World".data :=
  c5_theorem id id (fun _ => .error errMissingDescription) "general".data
    "Hello World".data 2 false "<h1>Hello World</h1>".data (by decide)
    (by decide) (fun a => ⟨errMissingDescription, rfl⟩)

/-! ## C4 — every generated slug validates -/

theorem replRunsAux_mem (p : Char → Bool) :
    ∀ (b : Bool) (l : JStr) (c : Char), c ∈ replRunsAux p b l →
      c = '-' ∨ (c ∈ l ∧ p c = false) := by
  intro b l
  induction l generalizing b with
  | nil => intro c hc; simp [replRunsAux] at hc
  | cons a r ih =>
    intro c hc
    rw [replRunsAux] at hc
    by_cases ha : p a
    · rw [if_pos ha] at hc
      by_cases hb : b
      · subst hb
        rw [if_pos rfl] at hc
        rcases ih true c hc with h | ⟨h1, h2⟩
        · exact Or.inl h
        · exact Or.inr ⟨List.mem_cons_of_mem a h1, h2⟩
      · simp only [hb, if_false] at hc
        rcases List.mem_cons.mp hc with h | h
        · exact Or.inl h
        · rcases ih true c h with h | ⟨h1, h2⟩
          · exact Or.inl h
          · exact Or.inr ⟨List.mem_cons_of_mem a h1, h2⟩
    · rw [if_neg ha] at hc
      rcases List.mem_cons.mp hc with h | h
      · subst h; exact Or.inr ⟨List.mem_cons_self _ _, by simpa using ha⟩
      · rcases ih false c h with h | ⟨h1, h2⟩
        · exact Or.inl h
        · exact Or.inr ⟨List.mem_cons_of_mem a h1, h2⟩

theorem replDisallowed_mem (l : JStr) (c : Char) (hc : c ∈ replDisallowed l) :
    c = '-' ∨ ((isWordChar c || c == '.' || c == '~') = true ∧ c ∈ l) := by
  rw [replDisallowed] at hc
  obtain ⟨a, ha, hfa⟩ := List.mem_map.mp hc
  by_cases h : (isWordChar a || a == '-' || a == '.' || a == '~') = true
  · rw [if_pos h] at hfa
    subst hfa
    simp only [Bool.or_eq_true, beq_iff_eq] at h
    rcases h with ((hw | hd) | hp) | ht
    · exact Or.inr ⟨by simp [hw], ha⟩
    · exact Or.inl hd
    · exact Or.inr ⟨by simp [hp], ha⟩
    · exact Or.inr ⟨by simp [ht], ha⟩
  · rw [if_neg h] at hfa
    exact Or.inl hfa.symm

theorem no_underscore_s5 (l : JStr) :
    '_' ∉ collapseDashes (replSpaceUnderscore l) := by
  intro h5
  rcases replRunsAux_mem _ _ _ _ h5 with h | ⟨h4, _⟩
  · exact absurd h (by decide)
  · rcases replRunsAux_mem _ _ _ _ h4 with h | ⟨_, hp⟩
    · exact absurd h (by decide)
    · exact absurd hp (by decide)

theorem mem_normalizeCore_isSlugChar (custom : JStr → JStr) (text : JStr)
    (c : Char) (hc : c ∈ normalizeCore custom text) : isSlugChar c = true := by
  rw [normalizeCore] at hc
  have h8 := (List.dropWhile_suffix (fun c => !isAsciiAlnum c)).sublist.mem
    (( List.rdropWhile_prefix _ _).sublist.mem hc)
  rcases replRunsAux_mem _ _ _ _ h8 with h | ⟨h7, _⟩
  · subst h; decide
  · rw [trimDashDots] at h7
    have h6 := (List.dropWhile_suffix (fun c => c == '-' || c == '.')).sublist.mem
      (( List.rdropWhile_prefix _ _).sublist.mem h7)
    rcases replDisallowed_mem _ _ h6 with h | ⟨hk, h5⟩
    · subst h; decide
    · simp only [Bool.or_eq_true, beq_iff_eq] at hk
      rcases hk with (hw | hp) | ht
      · rw [isWordChar] at hw
        simp only [Bool.or_eq_true, beq_iff_eq] at hw
        rcases hw with ha | hu
        · simp [isSlugChar, ha]
        · subst hu; exact absurd h5 (no_underscore_s5 _)
      · simp [isSlugChar, hp]
      · simp [isSlugChar, ht]

theorem hasConsecDash_cons2 (a b : Char) (r : JStr) :
    hasConsecDash (a :: b :: r) =
      (((a == '-') && (b == '-')) || hasConsecDash (b :: r)) := by
  by_cases ha : a = '-'
  · by_cases hb : b = '-'
    · subst ha; subst hb; rfl
    · subst ha
      rw [hasConsecDash.eq_def]
      split <;> simp_all
  · rw [hasConsecDash.eq_def]
    split <;> simp_all

theorem hasConsec_iff_chain (l : JStr) :
    hasConsecDash l = false ↔
      List.Chain' (fun x y => ¬(x = '-' ∧ y = '-')) l := by
  induction l with
  | nil => simp [hasConsecDash]
  | cons a r ih =>
    match r with
    | [] => simp [hasConsecDash.eq_def]
    | b :: t =>
      rw [hasConsecDash_cons2, List.chain'_cons]
      simp only [Bool.or_eq_false_iff, Bool.and_eq_false_iff]
      constructor
      · rintro ⟨h1, h2⟩
        exact ⟨by rcases h1 with h | h <;> simp_all, ih.mp h2⟩
      · rintro ⟨h1, h2⟩
        refine ⟨?_, ih.mpr h2⟩
        by_cases ha : a = '-'
        · by_cases hb : b = '-'
          · exact absurd ⟨ha, hb⟩ h1
          · right; simp [hb]
        · left; simp [ha]

theorem hasConsecDash_pre (l1 l2 : JStr) (h : hasConsecDash l2 = false)
    (hp : l1 <+: l2) : hasConsecDash l1 = false :=
  (hasConsec_iff_chain l1).mpr ( List.Chain'.prefix (( hasConsec_iff_chain l2).mp h) hp)

theorem replRuns_dash_head : ∀ (l : JStr) (c : Char) (t : JStr),
    replRunsAux (fun d => d == '-') true l = c :: t → c ≠ '-' := by
  intro l
  induction l with
  | nil => intro c t h; simp [replRunsAux] at h
  | cons a r ih =>
    intro c t h
    rw [replRunsAux] at h
    by_cases ha : a = '-'
    · rw [if_pos (by simp [ha]), if_pos rfl] at h
      exact ih c t h
    · rw [if_neg (by simp [ha])] at h
      obtain ⟨rfl, -⟩ := List.cons.injEq a _ c t ▸ h
      exact ha

theorem replRuns_dash_chain : ∀ (l : JStr) (b : Bool),
    List.Chain' (fun x y => ¬(x = '-' ∧ y = '-'))
      (replRunsAux (fun d => d == '-') b l) := by
  intro l
  induction l with
  | nil => intro b; simp [replRunsAux]
  | cons a r ih =>
    intro b
    rw [replRunsAux]
    by_cases ha : a = '-'
    · rw [if_pos (by simp [ha])]
      by_cases hb : b
      · rw [if_pos hb]; exact ih true
      · rw [if_neg hb]
        rw [List.chain'_cons']
        refine ⟨?_, ih true⟩
        intro y hy
        rcases hh : replRunsAux (fun d => d == '-') true r with _ | ⟨c, t⟩
        · rw [hh] at hy; simp at hy
        · rw [hh] at hy; simp at hy
          subst hy
          exact fun hcon => replRuns_dash_head r _ t hh hcon.2
    · rw [if_neg (by simp [ha])]
      rw [List.chain'_cons']
      exact ⟨fun y _ hcon => ha hcon.1, ih false⟩

theorem collapseDashes_chain (l : JStr) :
    List.Chain' (fun x y => ¬(x = '-' ∧ y = '-')) (collapseDashes l) :=
  replRuns_dash_chain l false

theorem headAlnum_of_pre (l1 l2 : JStr) (h : l1 <+: l2) (hne : l1 ≠ []) :
    headAlnum l1 = headAlnum l2 := by
  obtain ⟨t, rfl⟩ := h
  cases l1 with
  | nil => exact absurd rfl hne
  | cons c r => rfl

theorem headAlnum_dropAl (l : JStr) :
    l.dropWhile (fun c => !isAsciiAlnum c) = [] ∨
      headAlnum (l.dropWhile (fun c => !isAsciiAlnum c)) = true := by
  induction l with
  | nil => exact Or.inl rfl
  | cons a r ih =>
    rw [List.dropWhile_cons]
    by_cases ha : isAsciiAlnum a = true
    · rw [if_neg (by simp [ha])]
      right; simpa [headAlnum] using ha
    · rw [if_pos (by simp [ha])]
      exact ih

theorem truncateSlug_pre (m t : Nat) (l : JStr) : truncateSlug m t l <+: l := by
  rw [truncateSlug]
  split
  · dsimp only
    split
    · split
      · exact ( List.take_prefix _ _).trans ( List.take_prefix _ _)
      · exact List.take_prefix _ _
    · exact List.take_prefix _ _
  · exact ⟨[], List.append_nil _⟩

theorem truncateSlug_len (m t : Nat) (l : JStr) :
    (truncateSlug m t l).length ≤ m := by
  rw [truncateSlug]
  split
  · dsimp only
    split
    · split
      · simp [List.length_take]
      · simp [List.length_take]
    · simp [List.length_take]
  · rename_i h; omega

theorem truncateSlug_id (m t : Nat) (l : JStr) (h : l.length ≤ m) :
    truncateSlug m t l = l := by
  rw [truncateSlug, if_neg (by omega)]

theorem normalizeCore_eq (custom : JStr → JStr) (text : JStr) :
    normalizeCore custom text =
      List.rdropWhile (fun c => !isAsciiAlnum c)
        (List.dropWhile (fun c => !isAsciiAlnum c)
          (collapseDashes (trimDashDots (replDisallowed (collapseDashes
            (replSpaceUnderscore (List.map Char.toLower (stripDiacriticsL
              (stripHtmlTags (custom text)))))))))) := rfl

theorem rd_dw_head (Y : JStr)
    (h : List.rdropWhile (fun c => !isAsciiAlnum c)
      (List.dropWhile (fun c => !isAsciiAlnum c) Y) ≠ []) :
    headAlnum (List.rdropWhile (fun c => !isAsciiAlnum c)
      (List.dropWhile (fun c => !isAsciiAlnum c) Y)) = true := by
  have hpre := List.rdropWhile_prefix (fun c => !isAsciiAlnum c)
    (List.dropWhile (fun c => !isAsciiAlnum c) Y)
  rw [headAlnum_of_pre _ _ hpre h]
  rcases headAlnum_dropAl Y with hnil | hok
  · rw [hnil] at hpre h
    obtain ⟨t, ht⟩ := hpre
    exact absurd (List.append_eq_nil.mp ht).1 h
  · exact hok

theorem rd_dw_last (Y : JStr)
    (h : List.rdropWhile (fun c => !isAsciiAlnum c)
      (List.dropWhile (fun c => !isAsciiAlnum c) Y) ≠ []) :
    lastAlnum (List.rdropWhile (fun c => !isAsciiAlnum c)
      (List.dropWhile (fun c => !isAsciiAlnum c) Y)) = true := by
  rw [lastAlnum]
  have hrev : (List.rdropWhile (fun c => !isAsciiAlnum c)
      (List.dropWhile (fun c => !isAsciiAlnum c) Y)).reverse =
      List.dropWhile (fun c => !isAsciiAlnum c)
        (List.dropWhile (fun c => !isAsciiAlnum c) Y).reverse := by
    rw [List.rdropWhile, List.reverse_reverse]
  rw [hrev]
  rcases headAlnum_dropAl (List.dropWhile (fun c => !isAsciiAlnum c) Y).reverse
    with hnil | hok
  · rw [List.rdropWhile, hnil] at h
    exact absurd rfl h
  · exact hok

theorem normalizeCore_head (custom : JStr → JStr) (text : JStr)
    (h : normalizeCore custom text ≠ []) :
    headAlnum (normalizeCore custom text) = true := by
  rw [normalizeCore_eq] at h ⊢
  exact rd_dw_head _ h

theorem normalizeCore_last (custom : JStr → JStr) (text : JStr)
    (h : normalizeCore custom text ≠ []) :
    lastAlnum (normalizeCore custom text) = true := by
  rw [normalizeCore_eq] at h ⊢
  exact rd_dw_last _ h

theorem normalizeCore_noConsec (custom : JStr → JStr) (text : JStr) :
    hasConsecDash (normalizeCore custom text) = false := by
  refine (hasConsec_iff_chain _).mpr ?_
  rw [normalizeCore_eq]
  exact List.Chain'.prefix ((collapseDashes_chain _).suffix
    (List.dropWhile_suffix _)) ( List.rdropWhile_prefix _ _)

theorem randChars_getD_facts : ∀ n, n < 36 →
    (isAsciiAlnum (randChars.getD n 'a') = true ∧
     Char.toLower (randChars.getD n 'a') = randChars.getD n 'a') := by decide

theorem randChar_facts (rng : Nat → Nat) (i : Nat) :
    isAsciiAlnum (randChars.getD (rng i % 36) 'a') = true ∧
    Char.toLower (randChars.getD (rng i % 36) 'a') =
      randChars.getD (rng i % 36) 'a' :=
  randChars_getD_facts _ (Nat.mod_lt _ (by decide))

theorem alnum_ne_dash (c : Char) (h : isAsciiAlnum c = true) : c ≠ '-' := by
  intro hc; subst hc; exact absurd h (by decide)

theorem genRand6_eq (rng : Nat → Nat) :
    generateRandomString rng 6 =
      [randChars.getD (rng 0 % 36) 'a', randChars.getD (rng 1 % 36) 'a',
       randChars.getD (rng 2 % 36) 'a', randChars.getD (rng 3 % 36) 'a',
       randChars.getD (rng 4 % 36) 'a', randChars.getD (rng 5 % 36) 'a'] := rfl

theorem reserved_shape : ∀ w ∈ reservedWords,
    ¬(w.length = 11 ∧ w.getD 4 ' ' = '-') := by decide

theorem fallback_valid_gen (g0 g1 g2 g3 g4 g5 : Char)
    (a0 : isAsciiAlnum g0 = true) (a1 : isAsciiAlnum g1 = true)
    (a2 : isAsciiAlnum g2 = true) (a3 : isAsciiAlnum g3 = true)
    (a4 : isAsciiAlnum g4 = true) (a5 : isAsciiAlnum g5 = true)
    (l0 : Char.toLower g0 = g0) (l1 : Char.toLower g1 = g1)
    (l2 : Char.toLower g2 = g2) (l3 : Char.toLower g3 = g3)
    (l4 : Char.toLower g4 = g4) (l5 : Char.toLower g5 = g5) :
    validateSlugIsValid
      ('p' :: 'o' :: 's' :: 't' :: '-' :: [g0, g1, g2, g3, g4, g5]) = true ∧
    lastAlnum
      ('p' :: 'o' :: 's' :: 't' :: '-' :: [g0, g1, g2, g3, g4, g5]) = true ∧
    isReservedSlug
      ('p' :: 'o' :: 's' :: 't' :: '-' :: [g0, g1, g2, g3, g4, g5]) = false ∧
    ('p' :: 'o' :: 's' :: 't' :: '-' ::
      [g0, g1, g2, g3, g4, g5]).all isSlugChar = true ∧
    hasConsecDash
      ('p' :: 'o' :: 's' :: 't' :: '-' :: [g0, g1, g2, g3, g4, g5]) = false := by
  have hAll : ('p' :: 'o' :: 's' :: 't' :: '-' ::
      [g0, g1, g2, g3, g4, g5]).all isSlugChar = true := by
    simp [isSlugChar, a0, a1, a2, a3, a4, a5]
    decide
  have hLast : lastAlnum
      ('p' :: 'o' :: 's' :: 't' :: '-' :: [g0, g1, g2, g3, g4, g5]) = true := a5
  have hCons : hasConsecDash
      ('p' :: 'o' :: 's' :: 't' :: '-' :: [g0, g1, g2, g3, g4, g5]) = false := by
    rw [hasConsec_iff_chain]
    simp only [List.chain'_cons, List.chain'_singleton, and_true]
    refine ⟨by decide, by decide, by decide, by decide, ?_, ?_, ?_, ?_, ?_, ?_⟩
    · exact fun h => alnum_ne_dash g0 a0 h.2
    · exact fun h => alnum_ne_dash g0 a0 h.1
    · exact fun h => alnum_ne_dash g1 a1 h.1
    · exact fun h => alnum_ne_dash g2 a2 h.1
    · exact fun h => alnum_ne_dash g3 a3 h.1
    · exact fun h => alnum_ne_dash g4 a4 h.1
  have hRes : isReservedSlug
      ('p' :: 'o' :: 's' :: 't' :: '-' :: [g0, g1, g2, g3, g4, g5]) = false := by
    rw [isReservedSlug]
    have hmap : ('p' :: 'o' :: 's' :: 't' :: '-' ::
        [g0, g1, g2, g3, g4, g5]).map Char.toLower =
        'p' :: 'o' :: 's' :: 't' :: '-' :: [g0, g1, g2, g3, g4, g5] := by
      simp [l0, l1, l2, l3, l4, l5]
    rw [hmap]
    by_contra hne
    have hmem : ('p' :: 'o' :: 's' :: 't' :: '-' ::
        [g0, g1, g2, g3, g4, g5]) ∈ reservedWords := by
      simpa [List.contains_iff_exists_mem_beq] using hne
    exact reserved_shape _ hmem ⟨rfl, rfl⟩
  refine ⟨?_, hLast, hRes, hAll, hCons⟩
  rw [validateSlugIsValid, validateSlugErrors]
  simp [hAll, hLast, hCons, hRes, headAlnum]
  decide

theorem fallback_valid (rng : Nat → Nat) :
    validateSlugIsValid ("post-".data ++ generateRandomString rng 6) = true ∧
    lastAlnum ("post-".data ++ generateRandomString rng 6) = true ∧
    isReservedSlug ("post-".data ++ generateRandomString rng 6) = false ∧
    ("post-".data ++ generateRandomString rng 6).all isSlugChar = true ∧
    hasConsecDash ("post-".data ++ generateRandomString rng 6) = false := by
  have h : "post-".data ++ generateRandomString rng 6 =
      'p' :: 'o' :: 's' :: 't' :: '-' ::
        [randChars.getD (rng 0 % 36) 'a', randChars.getD (rng 1 % 36) 'a',
         randChars.getD (rng 2 % 36) 'a', randChars.getD (rng 3 % 36) 'a',
         randChars.getD (rng 4 % 36) 'a', randChars.getD (rng 5 % 36) 'a'] := by
    rw [genRand6_eq]
    rfl
  rw [h]
  exact fallback_valid_gen _ _ _ _ _ _
    (randChar_facts rng 0).1 (randChar_facts rng 1).1 (randChar_facts rng 2).1
    (randChar_facts rng 3).1 (randChar_facts rng 4).1 (randChar_facts rng 5).1
    (randChar_facts rng 0).2 (randChar_facts rng 1).2 (randChar_facts rng 2).2
    (randChar_facts rng 3).2 (randChar_facts rng 4).2 (randChar_facts rng 5).2

theorem valid_iff (slug : JStr) (h3 : 3 ≤ slug.length)
    (h80 : slug.length ≤ 80) (hall : slug.all isSlugChar = true)
    (hhead : headAlnum slug = true) (hcons : hasConsecDash slug = false) :
    validateSlugIsValid slug = true ↔
      (isReservedSlug slug = false ∧ lastAlnum slug = true) := by
  rw [validateSlugIsValid, validateSlugErrors]
  have hne : slug ≠ [] := by intro hsl; rw [hsl] at h3; simp at h3
  rw [if_neg hne]
  simp only [show ¬(slug.length < 3) by omega, if_false,
    show ¬(80 < slug.length) by omega, hall, hcons, hhead]
  cases hl : lastAlnum slug <;> cases hr : isReservedSlug slug <;>
    simp [hl, hr]

/-- C4 (amended): for every non-empty input, `generateSlug` succeeds and
its slug has length between 3 and 80, contains only the permitted slug
characters, starts with an alphanumeric character and has no consecutive
hyphens; `validateSlug` accepts it exactly when it is not a reserved word
and its final character is alphanumeric.  The final character is always
alphanumeric unless the 80-character truncation fired (the pre-truncation
pipeline output exceeded 80 characters), and when the pipeline fell back
to `post-<random6>` because its result was under 3 characters, the slug
always validates. -/
theorem c4_amended (rng : Nat → Nat) (text : JStr) (h : text ≠ []) :
    ∃ slug, generateSlug rng text = .ok slug ∧
      3 ≤ slug.length ∧ slug.length ≤ 80 ∧
      slug.all isSlugChar = true ∧ headAlnum slug = true ∧
      hasConsecDash slug = false ∧
      (validateSlugIsValid slug = true ↔
        (isReservedSlug slug = false ∧ lastAlnum slug = true)) ∧
      ((normalizeCore id text).length ≤ 80 → lastAlnum slug = true) ∧
      ((normalizeSlug id text).length < 3 → validateSlugIsValid slug = true) := by
  refine ⟨generateSlugCore id rng text, by rw [generateSlug, if_neg h], ?_⟩
  by_cases hlen : (normalizeSlug id text).length < 3
  · have hsame : generateSlugCore id rng text =
        "post-".data ++ generateRandomString rng 6 := by
      rw [generateSlugCore, if_pos hlen]
    rw [hsame]
    obtain ⟨hv, hl, hr, ha, hc⟩ := fallback_valid rng
    have hlen11 : ("post-".data ++ generateRandomString rng 6).length = 11 := by
      simp [generateRandomString]
    exact ⟨by omega, by omega, ha, rfl, hc, iff_of_true hv ⟨hr, hl⟩,
      fun _ => hl, fun _ => hv⟩
  · have hsame : generateSlugCore id rng text = normalizeSlug id text := by
      rw [generateSlugCore, if_neg hlen]
    rw [hsame]
    have hpre : normalizeSlug id text <+: normalizeCore id text :=
      truncateSlug_pre 80 56 (normalizeCore id text)
    have h3 : 3 ≤ (normalizeSlug id text).length := by omega
    have hne : normalizeSlug id text ≠ [] := by
      intro hsl; rw [hsl] at h3; simp at h3
    have hcne : normalizeCore id text ≠ [] := by
      intro hcc
      rw [hcc] at hpre
      obtain ⟨t, ht⟩ := hpre
      exact hne (List.append_eq_nil.mp ht).1
    have h80 : (normalizeSlug id text).length ≤ 80 :=
      truncateSlug_len 80 56 _
    have hall : (normalizeSlug id text).all isSlugChar = true := by
      rw [List.all_eq_true]
      intro c hc
      exact mem_normalizeCore_isSlugChar id text c (hpre.sublist.subset hc)
    have hhead : headAlnum (normalizeSlug id text) = true := by
      rw [headAlnum_of_pre _ _ hpre hne]
      exact normalizeCore_head id text hcne
    have hcons : hasConsecDash (normalizeSlug id text) = false :=
      hasConsecDash_pre _ _ (normalizeCore_noConsec id text) hpre
    refine ⟨h3, h80, hall, hhead, hcons,
      valid_iff _ h3 h80 hall hhead hcons, ?_, fun hh => absurd hh hlen⟩
    intro hc80
    have : normalizeSlug id text = normalizeCore id text :=
      truncateSlug_id 80 56 _ hc80
    rw [this]
    exact normalizeCore_last id text hcne

/-- C4 counterexample: `generateSlug("api")` returns `api` unchanged, yet
`validateSlug("api")` rejects it as a reserved word, so the claim that
`validateSlug(generateSlug(s))` always succeeds is false. -/
theorem c4_counterexample :
    generateSlug rngSeq "api".data = .ok "api".data ∧
    validateSlugIsValid "api".data = false := by decide

/-- C4 witness: the amended theorem instantiated at the non-empty input
`hello world` with the identity random source. -/
theorem c4_witness :
    ∃ slug, generateSlug rngSeq "hello world".data = .ok slug ∧
      3 ≤ slug.length ∧ slug.length ≤ 80 ∧
      slug.all isSlugChar = true ∧ headAlnum slug = true ∧
      hasConsecDash slug = false ∧
      (validateSlugIsValid slug = true ↔
        (isReservedSlug slug = false ∧ lastAlnum slug = true)) ∧
      ((normalizeCore id "hello world".data).length ≤ 80 →
        lastAlnum slug = true) ∧
      ((normalizeSlug id "hello world".data).length < 3 →
        validateSlugIsValid slug = true) :=
  c4_amended rngSeq "hello world".data (by decide)
